import Mathlib

/-!
Shallow embedding of `sdk/python/kfp/components/_python_op.py`: the compiler
that turns a typed Python callable into a component specification (typed
input/output descriptors, a command-line template of placeholder nodes, and a
generated in-container shim program).  Definitions are translated from the
source; reflection facilities (`inspect.getsource`, cloudpickle, the external
type registry) are supplied as context functions, matching the interface
boundaries drawn in the specification.
-/

/-- A single-quote character, built from its code point so generated Python
text can quote strings. -/
def sqChar : Char := Char.ofNat 39

/-- A one-character string holding a single quote. -/
def apos : String := String.singleton sqChar

/-- Join a list of strings with a separator, as the Python join method. -/
def joinSep (sep : String) : List String → String
  | [] => ""
  | [s] => s
  | s :: rest => s ++ sep ++ joinSep sep rest

/-- Python `s.endswith(suffix)` on code points. -/
def strEndsWith (s suffix : String) : Bool :=
  List.isSuffixOf suffix.data s.data

/-- Python `s[0:-n]`: drop the last `n` code points. -/
def strDropRight (s : String) (n : Nat) : String :=
  ⟨s.data.take (s.data.length - n)⟩

/-- Python `name.replace("_", "-")` for the one-character pattern used by the
argument-flag builder. -/
def underscoresToDashes (s : String) : String :=
  ⟨s.data.map (fun c => if c = '_' then '-' else c)⟩

/-- Python `name.replace("_", " ")` used by the component-name transform. -/
def underscoresToSpaces (s : String) : String :=
  ⟨s.data.map (fun c => if c = '_' then ' ' else c)⟩

/-- Helper for `re.sub(' +', ' ', s)`: collapse runs of spaces, tracking
whether the previous emitted character was a space. -/
def collapseSpacesAux : Bool → List Char → List Char
  | _, [] => []
  | prevSpace, c :: rest =>
    if c = ' ' then
      if prevSpace then collapseSpacesAux true rest
      else ' ' :: collapseSpacesAux true rest
    else c :: collapseSpacesAux false rest

/-- Python `re.sub(' +', ' ', s)`. -/
def collapseSpaces (s : String) : String :=
  ⟨collapseSpacesAux false s.data⟩

/-- Python `s.strip(chars)`: drop the given characters from both ends. -/
def pyStripChars (cs : List Char) (s : String) : String :=
  ⟨((s.data.dropWhile (· ∈ cs)).reverse.dropWhile (· ∈ cs)).reverse⟩

/-- The whitespace set of Python `str.strip()` with no argument. -/
def pyWhitespace : List Char :=
  [' ', '\t', '\n', '\r', Char.ofNat 11, Char.ofNat 12]

/-- Python `s.strip()` (default whitespace). -/
def pyStrip (s : String) : String := pyStripChars pyWhitespace s

/-- Python `s.capitalize()`: first character upper-cased, the rest lower-cased. -/
def pyCapitalize (s : String) : String :=
  match s.data with
  | [] => ""
  | c :: rest => ⟨Char.toUpper c :: rest.map Char.toLower⟩

/-- Escapes of one character inside a Python single-quoted string repr. -/
def pyReprChar (c : Char) : List Char :=
  if c = '\\' then ['\\', '\\']
  else if c = sqChar then ['\\', sqChar]
  else if c = '\n' then ['\\', 'n']
  else if c = '\t' then ['\\', 't']
  else if c = '\r' then ['\\', 'r']
  else [c]

/-- Python `repr(s)` for a string, in its common single-quoted form. -/
def pyReprStr (s : String) : String :=
  ⟨sqChar :: (s.data.map pyReprChar).flatten ++ [sqChar]⟩

/-- Python `str(b)` for a boolean. -/
def pyBoolStr (b : Bool) : String := if b then "True" else "False"

/-- Helper for `re.sub('\n\n\n+', '\n\n', s)`: `k` counts the newlines just
emitted; once two newlines are out, further consecutive newlines are dropped. -/
def collapseNewlinesAux : Nat → List Char → List Char
  | _, [] => []
  | k, c :: rest =>
    if c = '\n' then
      if 2 ≤ k then collapseNewlinesAux k rest
      else '\n' :: collapseNewlinesAux (k + 1) rest
    else c :: collapseNewlinesAux 0 rest

/-- The blank-line normalization at the end of program generation:
`re.sub('\n\n\n+', '\n\n', full_source).strip('\n') + '\n'`. -/
def collapseAndTerminate (s : String) : String :=
  pyStripChars ['\n'] ⟨collapseNewlinesAux 0 s.data⟩ ++ "\n"

/-- Little-endian base-10 digits with explicit fuel, so that the recursion is
structural and evaluates inside the kernel.  `natDigitsAux fuel n` is the digit
list of `n` whenever `n ≤ fuel`. -/
def natDigitsAux : Nat → Nat → List Nat
  | 0, _ => []
  | _, 0 => []
  | fuel + 1, n + 1 => ((n + 1) % 10) :: natDigitsAux fuel ((n + 1) / 10)

/-- Little-endian base-10 digits of `n` (empty for `0`). -/
def natDecimalDigits (n : Nat) : List Nat := natDigitsAux n n

/-- Value of a little-endian base-10 digit list. -/
def ofDecimalDigits : List Nat → Nat
  | [] => 0
  | d :: ds => d + 10 * ofDecimalDigits ds

/-- The character of one decimal digit. -/
def decDigitChar : Nat → Char
  | 0 => '0' | 1 => '1' | 2 => '2' | 3 => '3' | 4 => '4'
  | 5 => '5' | 6 => '6' | 7 => '7' | 8 => '8' | 9 => '9'
  | _ => '?'

/-- Python `str(n)` for a natural number: its decimal representation. -/
def natRepr (n : Nat) : String :=
  if n = 0 then "0"
  else ((natDecimalDigits n).reverse.map decDigitChar).asString

/-- The six file/stream passing-style markers (`InputPath`, `InputTextFile`,
`InputBinaryFile`, `OutputPath`, `OutputTextFile`, `OutputBinaryFile`). -/
inductive PassingStyle where
  | inputPath
  | inputTextFile
  | inputBinaryFile
  | outputPath
  | outputTextFile
  | outputBinaryFile
  deriving DecidableEq, Repr

/-- A plain (non-marker) Python annotation value, as `annotation_to_type_struct`
distinguishes them: a `type` object (carrying its dunder name), a forward
reference (carrying its referenced name), or anything else (carrying its `str`
form; an empty string models a falsy annotation). -/
inductive PyAnn where
  | tyObj (tyName : String)
  | forwardRef (arg : String)
  | strAnn (s : String)
  deriving DecidableEq, Repr

/-- A Python default value: `None` or any other value (carried as its
identity for the external value serializer). -/
inductive PyValue where
  | pyNone
  | lit (s : String)
  deriving DecidableEq, Repr

/-- A parameter annotation: either one of the six passing-style markers
(wrapping the underlying type annotation stored in its `type` attribute) or a
plain annotation (`none` models both an absent annotation and `None`, which
`annotation_to_type_struct` treats alike). -/
inductive ParamAnn where
  | marker (style : PassingStyle) (inner : Option PyAnn)
  | plain (ann : Option PyAnn)
  deriving DecidableEq, Repr

/-- One parameter of the callable, in declaration order.  `default = none`
models `inspect.Parameter.empty` (no default declared). -/
structure Param where
  name : String
  ann : ParamAnn
  default : Option PyValue
  deriving DecidableEq, Repr

/-- The return annotation shape distinguished by `_extract_component_interface`:
absent (`inspect.Parameter.empty`), an explicit `None`, a NamedTuple-like value
(with `_fields`, each field optionally typed via `_field_types` whose presence
is `hasFieldTypes`), or any other annotation. -/
inductive ReturnAnn where
  | empty
  | pyNone
  | namedTuple (fields : List (String × Option PyAnn)) (hasFieldTypes : Bool)
  | plain (ann : PyAnn)
  deriving DecidableEq, Repr

/-- The callable under compilation, as the reflection layer presents it:
dunder name and docstring, parameters in declaration order, return annotation,
and the three optional attributes attached by the `@python_component`
decorator. -/
structure Func where
  name : String
  doc : Option String
  params : List Param
  returnAnn : ReturnAnn
  componentHumanName : Option String
  componentDescription : Option String
  componentBaseImage : Option String
  deriving DecidableEq, Repr

/-- An input descriptor (`InputSpec` of `_structures`, with the two private
attributes `_passing_style` and `_parameter_name` the compiler attaches). -/
structure InputSpec where
  name : String
  type : Option String
  optional : Bool
  default : Option String
  passing_style : Option PassingStyle
  parameter_name : String
  deriving DecidableEq, Repr

/-- An output descriptor (`OutputSpec` of `_structures`, with the private
attributes `_passing_style`, `_parameter_name` and `_return_tuple_field_name`
the compiler attaches; `passing_style = none` is the by-return-value style). -/
structure OutputSpec where
  name : String
  type : Option String
  passing_style : Option PassingStyle
  parameter_name : Option String
  return_tuple_field_name : Option String
  deriving DecidableEq, Repr

/-- A literal token or placeholder node of the args template
(`InputValuePlaceholder`, `InputPathPlaceholder`, `OutputPathPlaceholder`). -/
inductive BasicArg where
  | literal (s : String)
  | inputValue (inputName : String)
  | inputPath (inputName : String)
  | outputPath (outputName : String)
  deriving DecidableEq, Repr

/-- An entry of the built args template: a basic token, or an `IfPlaceholder`
whose `IfPlaceholderStructure` has condition `IsPresentPlaceholder condName`
and the given `then_value` tokens — the only shape this compiler constructs. -/
inductive CommandArg where
  | basic (b : BasicArg)
  | ifPresentThen (condName : String) (then_value : List BasicArg)
  deriving DecidableEq, Repr

/-- The `ContainerSpec` part of the implementation: resolved image, command
line and args template. -/
structure ContainerSpecM where
  image : String
  command : List String
  args : List CommandArg
  deriving DecidableEq, Repr

/-- The component specification assembled by the compiler (name, description,
ordered descriptor lists, and the container implementation, absent until
`_func_to_component_spec` fills it in). -/
structure ComponentSpec where
  name : String
  description : Option String
  inputs : List InputSpec
  outputs : List OutputSpec
  implementation : Option ContainerSpecM
  deriving DecidableEq, Repr

/-- The process-wide default base image: a plain value or a zero-argument
factory evaluated lazily. -/
inductive DefaultImage where
  | value (s : String)
  | factory (f : Unit → String)

/-- The context consumed by signature analysis: the two faces of the external
`type_to_type_name` table (keyed by type objects and by name strings) and the
external value serializer used for defaults. -/
structure InterfaceCtx where
  typeObjToName : String → Option String
  strToName : String → Option String
  serializeValue : PyValue → Option String → String

/-- Lines 220-234, `annotation_to_type_struct`: resolve an annotation to a type
name.  A missing annotation (or `None`, or a falsy value) resolves to `none`; a
type object found in the table returns its registered name at once; otherwise
the derived name string is normalized through the string-keyed face of the
table. -/
def annotation_to_type_struct (ctx : InterfaceCtx) : Option PyAnn → Option String
  | none => none
  | some a =>
    if a = .strAnn "" then none
    else
      match a with
      | .tyObj tn =>
        match ctx.typeObjToName tn with
        | some mapped => some mapped
        | none =>
          match ctx.strToName tn with
          | some mapped => some mapped
          | none => some tn
      | .forwardRef arg =>
        match ctx.strToName arg with
        | some mapped => some mapped
        | none => some arg
      | .strAnn s =>
        match ctx.strToName s with
        | some mapped => some mapped
        | none => some s

/-- First-fit search for a fresh index: starting at `i`, return the first index
whose suffixed candidate is not in `used`, trying at most `fuel` indices (the
callers pass enough fuel for a fresh candidate to exist, see
`findFreshIndex_fresh`). -/
def findFreshIndex (name delimiter : String) (used : List String) : Nat → Nat → Nat
  | 0, i => i
  | fuel + 1, i =>
    if (name ++ delimiter ++ natRepr i) ∈ used then
      findFreshIndex name delimiter used fuel (i + 1)
    else i

/-- Modelled from the spec: `_make_name_unique_by_adding_index` (imported from
`._naming`, whose source is not part of this subsystem) — the deterministic
collision-resolution rule, called "stable suffixing" by the glossary: a name
already in use gains the delimiter and the first decimal index, starting from
2, that makes it unused. -/
def _make_name_unique_by_adding_index (name : String) (used : List String)
    (delimiter : String) : String :=
  if name ∈ used then
    name ++ delimiter ++ natRepr (findFreshIndex name delimiter used (used.length + 1) 2)
  else name

/-- Whether a passing style is one of the three output markers. -/
def isOutputStyle : PassingStyle → Bool
  | .outputPath => true
  | .outputTextFile => true
  | .outputBinaryFile => true
  | _ => false

/-- Whether a parameter is annotated with an output-style marker (the line 259
`isinstance` test). -/
def isOutputParam (p : Param) : Bool :=
  match p.ann with
  | .marker style _ => isOutputStyle style
  | .plain _ => false

/-- Lines 247-255: strip a trailing `_path` (only for the two path markers)
then a trailing `_file` from the externally visible name. -/
def stripIoSuffixes (style : PassingStyle) (n : String) : String :=
  let n :=
    if (style = .inputPath || style = .outputPath) && strEndsWith n "_path" then
      strDropRight n 5
    else n
  if strEndsWith n "_file" then strDropRight n 5 else n

/-- The running state of the parameter loop of `_extract_component_interface`:
the two name sets (kept as insertion lists, observed only through membership)
and the descriptor lists. -/
structure IfaceState where
  input_names : List String
  output_names : List String
  inputs : List InputSpec
  outputs : List OutputSpec
  deriving DecidableEq, Repr

/-- The empty starting state of the parameter loop. -/
def initIfaceState : IfaceState := ⟨[], [], [], []⟩

/-- Lines 276-281, shared by both input branches: mark optional when a default
is declared, and serialize a non-`None` default immediately. -/
def mkInputSpec (p : Param) (io_name : String) (type_struct : Option String)
    (style : Option PassingStyle) (ctx : InterfaceCtx) : InputSpec :=
  { name := io_name
    type := type_struct
    optional := (Param.default p).isSome
    default :=
      match Param.default p with
      | none => none
      | some v => if v = .pyNone then none else some (ctx.serializeValue v type_struct)
    passing_style := style
    parameter_name := p.name }

/-- Lines 238-282: process one parameter.  A passing-style marker with a
declared default raises (line 246); otherwise the suffix-stripped, collision
resolved name and the resolved type build an output descriptor (output-style
markers) or an input descriptor (everything else). -/
def processParam (ctx : InterfaceCtx) (st : IfaceState) (p : Param) :
    Except String IfaceState :=
  match p.ann with
  | .marker style inner =>
    if (Param.default p).isSome then
      .error "Default values for file inputs/outputs are not supported. If you need them for some reason, please create an issue and write about your usage scenario."
    else
      let io_name := stripIoSuffixes style p.name
      let type_struct := annotation_to_type_struct ctx inner
      if isOutputStyle style then
        let io_name := _make_name_unique_by_adding_index io_name st.output_names "_"
        .ok { st with
          output_names := st.output_names ++ [io_name]
          outputs := st.outputs ++ [{ name := io_name
                                      type := type_struct
                                      passing_style := some style
                                      parameter_name := some p.name
                                      return_tuple_field_name := none }] }
      else
        let io_name := _make_name_unique_by_adding_index io_name st.input_names "_"
        .ok { st with
          input_names := st.input_names ++ [io_name]
          inputs := st.inputs ++ [mkInputSpec p io_name type_struct (some style) ctx] }
  | .plain ann =>
    let type_struct := annotation_to_type_struct ctx ann
    let io_name := _make_name_unique_by_adding_index p.name st.input_names "_"
    .ok { st with
      input_names := st.input_names ++ [io_name]
      inputs := st.inputs ++ [mkInputSpec p io_name type_struct none ctx] }

/-- The parameter loop, in declaration order, stopping at the first raise. -/
def processParams (ctx : InterfaceCtx) : List Param → IfaceState →
    Except String IfaceState
  | [], st => .ok st
  | p :: ps, st =>
    match processParam ctx st p with
    | .error e => .error e
    | .ok st2 => processParams ctx ps st2

/-- Lines 286-300: one output descriptor per NamedTuple field, in field order,
each collision-resolved, carrying its field name, with by-return-value style. -/
def processReturnFields (ctx : InterfaceCtx) (hasFieldTypes : Bool) :
    List (String × Option PyAnn) → IfaceState → IfaceState
  | [], st => st
  | fld :: rest, st =>
    let type_struct :=
      if hasFieldTypes then annotation_to_type_struct ctx fld.2 else none
    let output_name := _make_name_unique_by_adding_index fld.1 st.output_names "_"
    processReturnFields ctx hasFieldTypes rest
      { st with
        output_names := st.output_names ++ [output_name]
        outputs := st.outputs ++ [{ name := output_name
                                    type := type_struct
                                    passing_style := none
                                    parameter_name := none
                                    return_tuple_field_name := some fld.1 }] }

/-- Lines 284-310, return-shape analysis after the parameter loop: NamedTuple
fields each become an output; otherwise a present, non-`None` annotation
becomes one output named by `single_output_name_const = "Output"` (collision
resolved); `None` or an absent annotation adds nothing. -/
def processReturnAnn (ctx : InterfaceCtx) (st : IfaceState) :
    ReturnAnn → IfaceState
  | .namedTuple fields hasFieldTypes => processReturnFields ctx hasFieldTypes fields st
  | .pyNone => st
  | .empty => st
  | .plain ann =>
    let output_name := _make_name_unique_by_adding_index "Output" st.output_names "_"
    let type_struct := annotation_to_type_struct ctx (some ann)
    { st with
      output_names := st.output_names ++ [output_name]
      outputs := st.outputs ++ [{ name := output_name
                                  type := type_struct
                                  passing_style := none
                                  parameter_name := none
                                  return_tuple_field_name := none }] }

/-- Lines 113-115: underscores to spaces, repeated spaces collapsed, stripped
of spaces, capitalized. -/
def _python_function_name_to_component_name (name : String) : String :=
  pyCapitalize (pyStripChars [' '] (collapseSpaces (underscoresToSpaces name)))

/-- Python `a or b` for an attribute that may be absent or falsy, against a
mandatory fallback. -/
def pyOrStr (a : Option String) (b : String) : String :=
  match a with
  | some s => if s = "" then b else s
  | none => b

/-- Python `a or b` where both sides may be absent or falsy. -/
def pyOrOpt (a b : Option String) : Option String :=
  match a with
  | some s => if s = "" then b else some s
  | none => b

/-- Lines 212-325, `_extract_component_interface`: run the parameter loop and
the return-shape analysis, then derive the component name and description
(decorator overrides first, line 312-317). -/
def _extract_component_interface (ctx : InterfaceCtx) (f : Func) :
    Except String ComponentSpec :=
  match processParams ctx f.params initIfaceState with
  | .error e => .error e
  | .ok st =>
    let st := processReturnAnn ctx st (Func.returnAnn f)
    let component_name :=
      pyOrStr f.componentHumanName (_python_function_name_to_component_name f.name)
    let description := pyOrOpt f.componentDescription f.doc
    let description :=
      match description with
      | some d => if d = "" then some d else some (pyStrip d ++ "\n")
      | none => none
    .ok { name := component_name
          description := description
          inputs := st.inputs
          outputs := st.outputs
          implementation := none }

/-- `inspect.getsource` of a serializer function, with the attributes the
generator inspects: dunder name, dunder module (when present), and source. -/
structure SerializerInfo where
  name : String
  hasModule : Bool
  module : String
  source : String
  deriving DecidableEq, Repr

/-- The context consumed by `_func_to_component_spec` beyond signature
analysis: the registry collaborators (`type_name_to_deserializer` as code and
definition text, `type_name_to_serializer`), `_module_is_builtin_or_standard`,
`inspect.getsource` of the six marker classes and of the two
parent-directory-creating factories, and the two capture strategies
(`_capture_function_code_using_cloudpickle`, which also absorbs the
`modules_to_capture` option, and `_capture_function_code_using_source_copy`). -/
structure AssembleCtx where
  iface : InterfaceCtx
  deserializers : String → Option (String × String)
  serializers : String → Option SerializerInfo
  moduleIsStd : String → Bool
  markerSource : PassingStyle → String
  parentDirsMakerSource : String
  fileMakerSource : String
  captureCloudpickle : Func → String
  captureSourceCopy : Func → String

/-- Python `set.add`: the collected sets are kept as deduplicated insertion
lists; their unordered iteration is a separate linearization argument. -/
def setInsert (l : List String) (s : String) : List String :=
  if s ∈ l then l else l ++ [s]

/-- One Python-level entry of the heterogeneous list
`component_spec.inputs + file_outputs_passed_using_func_parameters`. -/
inductive LoopParam where
  | inp (i : InputSpec)
  | out (o : OutputSpec)
  deriving DecidableEq, Repr

/-- The descriptor name of a loop entry. -/
def LoopParam.name : LoopParam → String
  | .inp i => i.name
  | .out o => o.name

/-- The `_parameter_name` attribute of a loop entry (always set on the
file-style outputs the loop receives). -/
def LoopParam.paramName : LoopParam → String
  | .inp i => i.parameter_name
  | .out o => o.parameter_name.getD ""

/-- The `_passing_style` attribute of a loop entry. -/
def LoopParam.style : LoopParam → Option PassingStyle
  | .inp i => i.passing_style
  | .out o => o.passing_style

/-- The resolved type name of a loop entry. -/
def LoopParam.typeName : LoopParam → Option String
  | .inp i => i.type
  | .out o => o.type

/-- Line 426: `isinstance(input, OutputSpec) or not input.optional`. -/
def LoopParam.isRequired : LoopParam → Bool
  | .inp i => !i.optional
  | .out _ => true

/-- The running state of the scaffold builder: the two definition sets (as
deduplicated insertion lists), the generated parser option lines, and the args
template. -/
structure BuildState where
  definitions : List String
  pre_func_definitions : List String
  parse_lines : List String
  arguments : List CommandArg
  deriving DecidableEq, Repr

/-- The empty starting state of the scaffold builder. -/
def initBuildState : BuildState := ⟨[], [], [], []⟩

/-- Lines 377-401, `get_argparse_type_for_input_file`: the argparse type
expression for a file/stream passing style, registering the marker-class
source (and the parent-directory-creating factory sources for output styles)
in the pre-function definition set; `none` for the by-value style. -/
def get_argparse_type_for_input_file (ctx : AssembleCtx) (st : BuildState) :
    Option PassingStyle → BuildState × Option String
  | none => (st, none)
  | some ps =>
    let st := { st with
      pre_func_definitions := setInsert st.pre_func_definitions (ctx.markerSource ps) }
    match ps with
    | .inputPath => (st, some "str")
    | .inputTextFile => (st, some ("argparse.FileType(" ++ apos ++ "rt" ++ apos ++ ")"))
    | .inputBinaryFile => (st, some ("argparse.FileType(" ++ apos ++ "rb" ++ apos ++ ")"))
    | .outputPath =>
      ({ st with pre_func_definitions :=
          setInsert st.pre_func_definitions ctx.parentDirsMakerSource },
       some "_make_parent_dirs_and_return_path")
    | .outputTextFile =>
      ({ st with pre_func_definitions :=
          setInsert st.pre_func_definitions ctx.fileMakerSource },
       some ("_parent_dirs_maker_that_returns_open_file(" ++ apos ++ "wt" ++ apos ++ ")"))
    | .outputBinaryFile =>
      ({ st with pre_func_definitions :=
          setInsert st.pre_func_definitions ctx.fileMakerSource },
       some ("_parent_dirs_maker_that_returns_open_file(" ++ apos ++ "wb" ++ apos ++ ")"))

/-- Lines 368-374, `get_deserializer_and_register_definitions`: the decoder
expression of a type name, registering its definition text (when truthy) in
the definition set; plain `str` for unregistered or absent types. -/
def get_deserializer_and_register_definitions (ctx : AssembleCtx)
    (st : BuildState) : Option String → BuildState × String
  | some t =>
    match ctx.deserializers t with
    | some (code, defn) =>
      (if defn ≠ "" then { st with definitions := setInsert st.definitions defn } else st,
       code)
    | none => (st, "str")
  | none => (st, "str")

/-- Lines 403-412, `get_serializer_and_register_definitions`: the encoder name
of a type name, registering its source when it is not from a standard-library
module; plain `str` for unregistered or absent types. -/
def get_serializer_and_register_definitions (ctx : AssembleCtx)
    (st : BuildState) : Option String → BuildState × String
  | some t =>
    match ctx.serializers t with
    | some si =>
      (if si.hasModule && !ctx.moduleIsStd si.module then
        { st with definitions := setInsert st.definitions si.source }
       else st,
       si.name)
    | none => (st, "str")
  | none => (st, "str")

/-- Line 427: the generated `add_argument` option line. -/
def addArgumentLine (param_flag param_var param_type is_required : String) :
    String :=
  "_parser.add_argument(\"" ++ param_flag ++ "\", dest=\"" ++ param_var ++
    "\", type=" ++ param_type ++ ", required=" ++ is_required ++
    ", default=argparse.SUPPRESS)"

/-- Line 457: the generated multi-valued option line for the shared
return-style output flag. -/
def outputPathsArgLine (nargs : Nat) : String :=
  "_parser.add_argument(\"----output-paths\", dest=\"_output_paths\", type=str, nargs=" ++
    natRepr nargs ++ ")"

/-- Lines 424-452, one iteration of the argument loop: emit the option line
(dest is the original parameter name, line 429) and the flag + placeholder
pair, wrapped in an `IfPlaceholder` guarded by presence when optional. -/
def processLoopParam (ctx : AssembleCtx) (st : BuildState) (e : LoopParam) :
    BuildState :=
  let param_flag := "--" ++ underscoresToDashes (LoopParam.name e)
  let is_required := LoopParam.isRequired e
  let r1 := get_argparse_type_for_input_file ctx st (LoopParam.style e)
  let r2 :=
    match r1.2 with
    | some t => (r1.1, t)
    | none => get_deserializer_and_register_definitions ctx r1.1 (LoopParam.typeName e)
  let line := addArgumentLine param_flag (LoopParam.paramName e) r2.2
    (pyBoolStr is_required)
  let st := { r2.1 with parse_lines := r2.1.parse_lines ++ [line] }
  let arguments_for_input : List BasicArg :=
    match LoopParam.style e with
    | some .inputPath | some .inputTextFile | some .inputBinaryFile =>
      [.literal param_flag, .inputPath (LoopParam.name e)]
    | some .outputPath | some .outputTextFile | some .outputBinaryFile =>
      [.literal param_flag, .outputPath (LoopParam.name e)]
    | none => [.literal param_flag, .inputValue (LoopParam.name e)]
  if is_required then
    { st with arguments := st.arguments ++ arguments_for_input.map CommandArg.basic }
  else
    { st with arguments :=
        st.arguments ++ [.ifPresentThen (LoopParam.name e) arguments_for_input] }

/-- The argument loop over all inputs followed by all file-style outputs. -/
def processLoopParams (ctx : AssembleCtx) : List LoopParam → BuildState →
    BuildState
  | [], st => st
  | e :: es, st => processLoopParams ctx es (processLoopParam ctx st e)

/-- Line 421: the outputs returned from the function (by-return-value style). -/
def returnStyleOutputs (outs : List OutputSpec) : List OutputSpec :=
  outs.filter (fun o => o.passing_style.isNone)

/-- Line 422: the outputs passed through function parameters (file styles). -/
def fileStyleOutputs (outs : List OutputSpec) : List OutputSpec :=
  outs.filter (fun o => o.passing_style.isSome)

/-- Lines 466-469: collect the serializer expression per return-style output,
registering serializer sources in the definition set. -/
def collectSerializers (ctx : AssembleCtx) : List OutputSpec → BuildState →
    BuildState × List String
  | [], st => (st, [])
  | o :: os, st =>
    let r := get_serializer_and_register_definitions ctx st o.type
    let rest := collectSerializers ctx os r.1
    (rest.1, r.2 :: rest.2)

/-- Lines 340-350: resolve the effective base image.  A decorator-attached
image conflicts with a different explicit one; otherwise the explicit image
wins, and only when neither is present is the process-wide default used,
calling it if it is a factory. -/
def resolveBaseImage (decorator_base_image : Option String)
    (base_image : Option String) (default_base_image : DefaultImage) :
    Except String String :=
  match decorator_base_image with
  | some d =>
    if base_image.isSome && base_image ≠ some d then
      .error ("base_image (" ++ base_image.getD "" ++
        ") conflicts with the decorator-specified base image metadata (" ++ d ++ ")")
    else .ok d
  | none =>
    match base_image with
    | some b => .ok b
    | none =>
      match default_base_image with
      | .value s => .ok s
      | .factory f => .ok (f ())

/-- Lines 492-506: the fixed tail of the generated program, from the result
normalization through the serialization list to the writing epilogue. -/
def shimTail (serializer_exprs : List String) : String :=
  "if not hasattr(_outputs, " ++ apos ++ "__getitem__" ++ apos ++
  ") or isinstance(_outputs, str):\n    _outputs = [_outputs]\n\n_output_serializers = [\n    " ++
  joinSep ",\n    " serializer_exprs ++
  "\n]\n\nimport os\nfor idx, output_file in enumerate(_output_files):\n    try:\n        os.makedirs(os.path.dirname(output_file))\n    except OSError:\n        pass\n    with open(output_file, " ++
  apos ++ "w" ++ apos ++
  ") as f:\n        f.write(_output_serializers[idx](_outputs[idx]))\n"

/-- Lines 520-523: the package pre-installation wrapper, present only when
packages are requested. -/
def packagesPreCommand (packages_to_install : List String) : List String :=
  if packages_to_install ≠ [] then
    let pipLine :=
      "PIP_DISABLE_PIP_VERSION_CHECK=1 python3 -m pip install --quiet --no-warn-script-location " ++
      joinSep " " (packages_to_install.map pyReprStr)
    ["sh", "-c", "(" ++ pipLine ++ " || " ++ pipLine ++ " --user) && \"$0\" \"$@\""]
  else []

/-- Lines 328-533, `_func_to_component_spec`: resolve the image, analyze the
signature, capture the function body, build the parser scaffold and args
template, generate the program text, and attach the container implementation.
`sigma` is the iteration order in which the two unordered definition sets are
read (`list(definitions)` at line 473, the join at line 471).  The preliminary
`arguments` built at lines 356-358 is dead code overwritten at line 423 and is
not modelled. -/
def _func_to_component_spec (ctx : AssembleCtx) (sigma : List String → List String)
    (func : Func) (extra_code : String) (base_image : Option String)
    (packages_to_install : List String) (use_code_pickling : Bool)
    (default_base_image : DefaultImage) : Except String ComponentSpec :=
  match resolveBaseImage (Func.componentBaseImage func) base_image default_base_image with
  | .error e => .error e
  | .ok image =>
    match _extract_component_interface ctx.iface func with
    | .error e => .error e
    | .ok component_spec =>
      let func_code :=
        if use_code_pickling then ctx.captureCloudpickle func
        else ctx.captureSourceCopy func
      let return_outputs := returnStyleOutputs component_spec.outputs
      let file_outputs := fileStyleOutputs component_spec.outputs
      let loopEntries :=
        component_spec.inputs.map LoopParam.inp ++ file_outputs.map LoopParam.out
      let st := processLoopParams ctx loopEntries initBuildState
      let st :=
        if return_outputs ≠ [] then
          { st with
            parse_lines := st.parse_lines ++
              [outputPathsArgLine component_spec.outputs.length]
            arguments := st.arguments ++
              [.basic (.literal "----output-paths")] ++
              component_spec.outputs.map (fun o => .basic (.outputPath o.name)) }
        else st
      let collected := collectSerializers ctx return_outputs st
      let st := collected.1
      let pre_func_code := joinSep "\n" (sigma st.pre_func_definitions)
      let headerLines : List String :=
        ["import argparse",
         "_parser = argparse.ArgumentParser(prog=" ++ pyReprStr component_spec.name ++
           ", description=" ++ pyReprStr ((component_spec.description).getD "") ++ ")"]
      let arg_parse_code_lines :=
        sigma st.definitions ++ headerLines ++ st.parse_lines ++
        ["_parsed_args = vars(_parser.parse_args())",
         "_output_files = _parsed_args.pop(\"_output_paths\", [])"]
      let full_source :=
        pre_func_code ++ "\n\n" ++ extra_code ++ "\n\n" ++ func_code ++ "\n\n" ++
        joinSep "\n" arg_parse_code_lines ++
        "\n\n_outputs = " ++ func.name ++ "(**_parsed_args)\n\n" ++
        shimTail collected.2
      let full_source := collapseAndTerminate full_source
      let command :=
        packagesPreCommand packages_to_install ++ ["python3", "-u", "-c", full_source]
      .ok { component_spec with
        implementation := some { image := image
                                 command := command
                                 args := st.arguments } }

/-- The interpreter version tuple `tuple(sys.version_info)` as far as the
generated loader inspects it: major, minor, and the remaining components
(micro and beyond) that only the full-tuple equality test sees. -/
structure PyVersionInfo where
  major : Nat
  minor : Nat
  micro : Nat
  deriving DecidableEq, Repr

/-- The fatal version check of the loader fragment generated by
`_capture_function_code_using_cloudpickle` (generated lines
`current_python_version[0] != pickler_python_version[0] or ...`): raise when
the major versions differ, when the consuming minor version is below the
producing one, or when the consuming major is 3 and exactly one side has minor
below 6. -/
def loaderVersionCheckFatal (pickler current : PyVersionInfo) : Bool :=
  decide (current.major ≠ pickler.major) ||
  decide (current.minor < pickler.minor) ||
  (decide (current.major = 3) && (decide (pickler.minor < 6) != decide (current.minor < 6)))

/-- The non-fatal warning of the generated loader fragment: reached only when
the fatal check passed, printed when the full version tuples differ. -/
def loaderVersionCheckWarns (pickler current : PyVersionInfo) : Bool :=
  !loaderVersionCheckFatal pickler current && decide (pickler ≠ current)

/-- Stated from the spec (section 4.4): the placeholder kind chosen for a
bound parameter — `InputValue`, `InputPath`, or `OutputPath` depending on
passing style. -/
def placeholderForStyle : Option PassingStyle → String → BasicArg
  | some .inputPath, n => .inputPath n
  | some .inputTextFile, n => .inputPath n
  | some .inputBinaryFile, n => .inputPath n
  | some .outputPath, n => .outputPath n
  | some .outputTextFile, n => .outputPath n
  | some .outputBinaryFile, n => .outputPath n
  | none, n => .inputValue n

/-- Stated from the spec (section 4.4): the args-template block of one input
or file-style output — a two-element flag + placeholder pair, the flag being a
double dash followed by the name with underscores replaced by hyphens,
appended directly when required and wrapped in an `IfThen` guarded by
`IsPresent(name)` when optional. -/
def argBlockSpec (e : LoopParam) : List CommandArg :=
  let flag := "--" ++ underscoresToDashes (LoopParam.name e)
  let pair : List BasicArg := [.literal flag, placeholderForStyle (LoopParam.style e) (LoopParam.name e)]
  if LoopParam.isRequired e then pair.map CommandArg.basic
  else [.ifPresentThen (LoopParam.name e) pair]

/-- The state-independent argparse type expression of one loop entry (the
value that `get_argparse_type_for_input_file` or, for by-value entries,
`get_deserializer_and_register_definitions` returns). -/
def argparseTypeOf (ctx : AssembleCtx) (e : LoopParam) : String :=
  match LoopParam.style e with
  | some .inputPath => "str"
  | some .inputTextFile => "argparse.FileType(" ++ apos ++ "rt" ++ apos ++ ")"
  | some .inputBinaryFile => "argparse.FileType(" ++ apos ++ "rb" ++ apos ++ ")"
  | some .outputPath => "_make_parent_dirs_and_return_path"
  | some .outputTextFile =>
    "_parent_dirs_maker_that_returns_open_file(" ++ apos ++ "wt" ++ apos ++ ")"
  | some .outputBinaryFile =>
    "_parent_dirs_maker_that_returns_open_file(" ++ apos ++ "wb" ++ apos ++ ")"
  | none =>
    match LoopParam.typeName e with
    | some t =>
      match ctx.deserializers t with
      | some (code, _) => code
      | none => "str"
    | none => "str"

/-- The parser option line of one loop entry, as emitted by the loop: flag in
kebab case, dest the original parameter name, type by style, required by the
line-426 rule. -/
def argLineFor (ctx : AssembleCtx) (e : LoopParam) : String :=
  addArgumentLine ("--" ++ underscoresToDashes (LoopParam.name e))
    (LoopParam.paramName e) (argparseTypeOf ctx e)
    (pyBoolStr (LoopParam.isRequired e))

/-- Stated from the claim: a version is pre-3.6 when its major version is
below 3, or is 3 with minor below 6. -/
def isPre36 (v : PyVersionInfo) : Prop :=
  v.major < 3 ∨ (v.major = 3 ∧ v.minor < 6)

instance (v : PyVersionInfo) : Decidable (isPre36 v) := by
  unfold isPre36; infer_instance

/-- Stated from the claim (C8): the loader fails fatally exactly when the
major versions differ or exactly one of the two sides is pre-3.6. -/
def claimFatalCondition (pickler current : PyVersionInfo) : Prop :=
  current.major ≠ pickler.major ∨ ¬(isPre36 pickler ↔ isPre36 current)

instance (p c : PyVersionInfo) : Decidable (claimFatalCondition p c) := by
  unfold claimFatalCondition; infer_instance

/-- Whether a computation raised. -/
def isErr {ε α : Type} : Except ε α → Bool
  | .error _ => true
  | .ok _ => false

/-- A sum view of `Except`, giving it decidable equality. -/
def exceptToSum {ε α : Type} : Except ε α → ε ⊕ α
  | .error e => .inl e
  | .ok a => .inr a

instance {ε α : Type} [DecidableEq ε] [DecidableEq α] : DecidableEq (Except ε α) :=
  fun a b =>
    decidable_of_iff (exceptToSum a = exceptToSum b)
      (by cases a <;> cases b <;> simp [exceptToSum])

/-- The args template of an assembled specification. -/
def specArgs (r : Except String ComponentSpec) : Except String (List CommandArg) :=
  Except.map (fun s => match s.implementation with
    | some im => im.args
    | none => []) r

/-- The command line of an assembled specification. -/
def specCommand (r : Except String ComponentSpec) : Except String (List String) :=
  Except.map (fun s => match s.implementation with
    | some im => im.command
    | none => []) r

/-- The image and args of an assembled specification: the parts the
determinism analysis shows independent of set-iteration order. -/
def specImageArgs (r : Except String ComponentSpec) :
    Except String (String × List CommandArg) :=
  Except.map (fun s => match s.implementation with
    | some im => (im.image, im.args)
    | none => ("", [])) r

/-- The input names of an analyzed interface. -/
def ifaceInputNames (r : Except String ComponentSpec) : List String :=
  match r with
  | .ok s => s.inputs.map InputSpec.name
  | .error _ => []

/-- The output names of an analyzed interface. -/
def ifaceOutputNames (r : Except String ComponentSpec) : List String :=
  match r with
  | .ok s => s.outputs.map OutputSpec.name
  | .error _ => []

/-- A small concrete analysis context used to evaluate the embedding: the type
table knows the Python `str` type under the canonical name `String`, and the
value serializer returns the literal payload. -/
def ictx0 : InterfaceCtx :=
  { typeObjToName := fun t => if t = "str" then some "String" else none
    strToName := fun t => if t = "str" then some "String" else none
    serializeValue := fun v _ => match v with
      | .pyNone => ""
      | .lit s => s }

/-- A small concrete assembly context: no registered serializers or
deserializers, and short stand-ins for the reflected source fragments. -/
def actx0 : AssembleCtx :=
  { iface := ictx0
    deserializers := fun _ => none
    serializers := fun _ => none
    moduleIsStd := fun _ => true
    markerSource := fun ps =>
      match ps with
      | .inputPath => "class InputPath:A"
      | .inputTextFile => "class InputTextFile:A"
      | .inputBinaryFile => "class InputBinaryFile:A"
      | .outputPath => "class OutputPath:A"
      | .outputTextFile => "class OutputTextFile:A"
      | .outputBinaryFile => "class OutputBinaryFile:A"
    parentDirsMakerSource := "def _make_parent_dirs_and_return_path(p):B"
    fileMakerSource := "def _parent_dirs_maker_that_returns_open_file(m):C"
    captureCloudpickle := fun f => "PICKLE " ++ f.name
    captureSourceCopy := fun f => "def " ++ f.name ++ "(): D" }

/-- A callable with one `OutputPath` parameter and a plain `str` return
annotation: the mixed-outputs case. -/
def funcMixedOutputs : Func :=
  { name := "write_out"
    doc := none
    params := [{ name := "out_path", ann := .marker .outputPath none, default := none }]
    returnAnn := .plain (.tyObj "str")
    componentHumanName := none
    componentDescription := none
    componentBaseImage := none }

/-- A callable with one `InputPath` and one `OutputPath` parameter, making the
pre-function definition set hold three distinct entries. -/
def funcTwoFiles : Func :=
  { name := "g"
    doc := none
    params := [{ name := "a", ann := .marker .inputPath none, default := none },
               { name := "b", ann := .marker .outputPath none, default := none }]
    returnAnn := .empty
    componentHumanName := none
    componentDescription := none
    componentBaseImage := none }

/-- A callable whose `InputPath` parameter declares a default value. -/
def funcFileDefault : Func :=
  { name := "bad"
    doc := none
    params := [{ name := "x", ann := .marker .inputPath none, default := some (.lit "5") }]
    returnAnn := .empty
    componentHumanName := none
    componentDescription := none
    componentBaseImage := none }

/-- A callable with a file-style parameter and an optional by-value
parameter. -/
def funcFileAndOptional : Func :=
  { name := "good_func"
    doc := none
    params := [{ name := "data_path", ann := .marker .inputPath none, default := none },
               { name := "n", ann := .plain (some (.tyObj "str")),
                 default := some (.lit "7") }]
    returnAnn := .empty
    componentHumanName := none
    componentDescription := none
    componentBaseImage := none }

/-- A callable whose two parameters normalize to the same visible name
`data`, plus a return-derived output. -/
def funcCollidingNames : Func :=
  { name := "h"
    doc := none
    params := [{ name := "data_path", ann := .marker .inputPath none, default := none },
               { name := "data", ann := .plain (some (.tyObj "str")), default := none }]
    returnAnn := .plain (.tyObj "str")
    componentHumanName := none
    componentDescription := none
    componentBaseImage := none }

/-- A callable returning an explicitly annotated `None`, with one file-style
output parameter. -/
def funcReturnsNone : Func :=
  { name := "side_effect"
    doc := none
    params := [{ name := "out_path", ann := .marker .outputPath none, default := none }]
    returnAnn := .pyNone
    componentHumanName := none
    componentDescription := none
    componentBaseImage := none }

/-- A callable whose parameter name is renamed for the outside
(`number_file_path` is exposed as `number`) while the generated code keeps the
original name. -/
def funcRenamedParam : Func :=
  { name := "consume"
    doc := none
    params := [{ name := "number_file_path", ann := .marker .inputPath none,
                 default := none }]
    returnAnn := .empty
    componentHumanName := none
    componentDescription := none
    componentBaseImage := none }

/-- A callable carrying a decorator-attached base image. -/
def funcWithAttachedImage : Func :=
  { name := "img_func"
    doc := none
    params := []
    returnAnn := .empty
    componentHumanName := none
    componentDescription := none
    componentBaseImage := some "attached:1" }

/-- The original parameter names carried by the input descriptors of an
analyzed interface. -/
def ifaceInputParamNames (r : Except String ComponentSpec) : List String :=
  match r with
  | .ok s => s.inputs.map InputSpec.parameter_name
  | .error _ => []

/-- The original parameter names carried by the file-style output descriptors
of an analyzed interface. -/
def ifaceFileOutputParamNames (r : Except String ComponentSpec) :
    List (Option String) :=
  match r with
  | .ok s => (fileStyleOutputs s.outputs).map OutputSpec.parameter_name
  | .error _ => []

theorem ofDecimalDigits_natDigitsAux (fuel : Nat) :
    ∀ n, n ≤ fuel → ofDecimalDigits (natDigitsAux fuel n) = n := by
  induction fuel with
  | zero =>
    intro n hn
    have : n = 0 := Nat.le_zero.mp hn
    subst this
    rfl
  | succ fuel ih =>
    intro n hn
    match n with
    | 0 => rfl
    | m + 1 =>
      have hdiv : (m + 1) / 10 < m + 1 := Nat.div_lt_self (Nat.succ_pos m) (by norm_num)
      have hle : (m + 1) / 10 ≤ fuel := by omega
      show ((m + 1) % 10) + 10 * ofDecimalDigits (natDigitsAux fuel ((m + 1) / 10)) = m + 1
      rw [ih ((m + 1) / 10) hle]
      exact Nat.mod_add_div (m + 1) 10

theorem ofDecimalDigits_natDecimalDigits (n : Nat) :
    ofDecimalDigits (natDecimalDigits n) = n :=
  ofDecimalDigits_natDigitsAux n n le_rfl

theorem natDigitsAux_lt_ten (fuel : Nat) :
    ∀ n d, d ∈ natDigitsAux fuel n → d < 10 := by
  induction fuel with
  | zero => intro n d h; simp [natDigitsAux] at h
  | succ fuel ih =>
    intro n d h
    match n with
    | 0 => simp [natDigitsAux] at h
    | m + 1 =>
      rcases List.mem_cons.mp h with h1 | h2
      · subst h1; exact Nat.mod_lt _ (by norm_num)
      · exact ih _ d h2

theorem decDigitChar_inj_fin :
    ∀ a b : Fin 10, decDigitChar a.val = decDigitChar b.val → a = b := by decide

theorem decDigitChar_inj {a b : Nat} (ha : a < 10) (hb : b < 10)
    (h : decDigitChar a = decDigitChar b) : a = b :=
  congrArg Fin.val (decDigitChar_inj_fin ⟨a, ha⟩ ⟨b, hb⟩ h)

theorem map_decDigitChar_inj :
    ∀ l1 l2 : List Nat, (∀ d ∈ l1, d < 10) → (∀ d ∈ l2, d < 10) →
      l1.map decDigitChar = l2.map decDigitChar → l1 = l2 := by
  intro l1
  induction l1 with
  | nil =>
    intro l2 _ _ h
    cases l2 with
    | nil => rfl
    | cons b t2 => simp at h
  | cons a t ih =>
    intro l2 h1 h2 h
    cases l2 with
    | nil => simp at h
    | cons b t2 =>
      simp only [List.map_cons, List.cons.injEq] at h
      have hab : a = b :=
        decDigitChar_inj (h1 a (List.mem_cons_self a t)) (h2 b (List.mem_cons_self b t2)) h.1
      have ht : t = t2 :=
        ih t2 (fun d hd => h1 d (List.mem_cons_of_mem a hd))
          (fun d hd => h2 d (List.mem_cons_of_mem b hd)) h.2
      rw [hab, ht]

theorem string_data_inj {s t : String} (h : s.data = t.data) : s = t := by
  cases s; cases t; simp_all

theorem natRepr_data_of_ne_zero {n : Nat} (hn : n ≠ 0) :
    (natRepr n).data = (natDecimalDigits n).reverse.map decDigitChar := by
  unfold natRepr
  rw [if_neg hn]
  rfl

theorem natRepr_eq_zero_digits {n : Nat}
    (h : (natDecimalDigits n).reverse.map decDigitChar = ['0']) : n = 0 := by
  have h2 : (natDecimalDigits n).reverse.map decDigitChar = List.map decDigitChar [0] := by
    rw [h]; rfl
  have h3 := map_decDigitChar_inj (natDecimalDigits n).reverse [0]
    (fun d hd => natDigitsAux_lt_ten n n d (List.mem_reverse.mp hd))
    (by intro d hd; simp at hd; omega) h2
  have hrev : natDecimalDigits n = [0] := by
    have := congrArg List.reverse h3
    simpa using this
  have := ofDecimalDigits_natDecimalDigits n
  rw [hrev] at this
  simpa [ofDecimalDigits] using this.symm

theorem natRepr_injective : Function.Injective natRepr := by
  intro a b h
  by_cases ha : a = 0 <;> by_cases hb : b = 0
  · rw [ha, hb]
  · exfalso
    apply hb
    apply natRepr_eq_zero_digits
    have hd := congrArg String.data h
    rw [natRepr_data_of_ne_zero hb] at hd
    rw [← hd, ha]
    rfl
  · exfalso
    apply ha
    apply natRepr_eq_zero_digits
    have hd := congrArg String.data h
    rw [natRepr_data_of_ne_zero ha] at hd
    rw [hd, hb]
    rfl
  · have hd := congrArg String.data h
    rw [natRepr_data_of_ne_zero ha, natRepr_data_of_ne_zero hb] at hd
    have := map_decDigitChar_inj (natDecimalDigits a).reverse (natDecimalDigits b).reverse
      (fun d hm => natDigitsAux_lt_ten a a d (List.mem_reverse.mp hm))
      (fun d hm => natDigitsAux_lt_ten b b d (List.mem_reverse.mp hm)) hd
    have hsame : natDecimalDigits a = natDecimalDigits b := by
      have := congrArg List.reverse this
      simpa using this
    calc a = ofDecimalDigits (natDecimalDigits a) := (ofDecimalDigits_natDecimalDigits a).symm
      _ = ofDecimalDigits (natDecimalDigits b) := by rw [hsame]
      _ = b := ofDecimalDigits_natDecimalDigits b

theorem suffixedName_inj (name delimiter : String) :
    Function.Injective (fun i => name ++ delimiter ++ natRepr i) := by
  intro a b h
  apply natRepr_injective
  apply string_data_inj
  have hd := congrArg String.data h
  simp only [String.data_append, List.append_assoc] at hd
  exact List.append_cancel_left (List.append_cancel_left hd)

theorem findFreshIndex_fresh (name delimiter : String) (used : List String) :
    ∀ fuel i, (∃ j, j < fuel ∧ (name ++ delimiter ++ natRepr (i + j)) ∉ used) →
      (name ++ delimiter ++ natRepr (findFreshIndex name delimiter used fuel i)) ∉ used := by
  intro fuel
  induction fuel with
  | zero =>
    rintro i ⟨j, hj, _⟩
    omega
  | succ fuel ih =>
    rintro i ⟨j, hj, hfree⟩
    show (name ++ delimiter ++ natRepr
      (if (name ++ delimiter ++ natRepr i) ∈ used then
        findFreshIndex name delimiter used fuel (i + 1) else i)) ∉ used
    by_cases hmem : (name ++ delimiter ++ natRepr i) ∈ used
    · rw [if_pos hmem]
      apply ih
      have hj0 : j ≠ 0 := by
        rintro rfl
        exact hfree (by simpa using hmem)
      refine ⟨j - 1, by omega, ?_⟩
      have : i + 1 + (j - 1) = i + j := by omega
      rw [this]
      exact hfree
    · rw [if_neg hmem]
      exact hmem

theorem exists_fresh_index (name delimiter : String) (used : List String) (i : Nat) :
    ∃ j, j < used.length + 1 ∧ (name ++ delimiter ++ natRepr (i + j)) ∉ used := by
  by_contra hcon
  push_neg at hcon
  have hinj : Function.Injective
      (fun j : Fin (used.length + 1) => name ++ delimiter ++ natRepr (i + j.val)) := by
    intro a b h
    have := suffixedName_inj name delimiter h
    have : i + a.val = i + b.val := this
    exact Fin.ext (by omega)
  have hmaps : ∀ a : Fin (used.length + 1),
      (name ++ delimiter ++ natRepr (i + a.val)) ∈ used.toFinset :=
    fun a => List.mem_toFinset.mpr (hcon a.val a.isLt)
  have h1 : (Finset.univ : Finset (Fin (used.length + 1))).card ≤ used.toFinset.card :=
    Finset.card_le_card_of_injOn _ (fun a _ => hmaps a) (Function.Injective.injOn hinj)
  have h2 : used.toFinset.card ≤ used.length := List.toFinset_card_le used
  simp only [Finset.card_univ, Fintype.card_fin] at h1
  omega

theorem make_name_unique_not_mem (name : String) (used : List String)
    (delimiter : String) :
    _make_name_unique_by_adding_index name used delimiter ∉ used := by
  unfold _make_name_unique_by_adding_index
  by_cases h : name ∈ used
  · rw [if_pos h]
    exact findFreshIndex_fresh name delimiter used (used.length + 1) 2
      (exists_fresh_index name delimiter used 2)
  · rw [if_neg h]
    exact h

theorem make_name_unique_of_not_mem (name : String) (used : List String)
    (delimiter : String) (h : name ∉ used) :
    _make_name_unique_by_adding_index name used delimiter = name := by
  unfold _make_name_unique_by_adding_index
  rw [if_neg h]


theorem processParam_marker_default_err (ctx : InterfaceCtx) (st : IfaceState)
    (p : Param) (style : PassingStyle) (inner : Option PyAnn)
    (hann : p.ann = .marker style inner) (hdef : (Param.default p).isSome = true) :
    processParam ctx st p =
      .error "Default values for file inputs/outputs are not supported. If you need them for some reason, please create an issue and write about your usage scenario." := by
  simp [processParam, hann, hdef]

theorem processParam_marker_out (ctx : InterfaceCtx) (st : IfaceState)
    (p : Param) (style : PassingStyle) (inner : Option PyAnn)
    (hann : p.ann = .marker style inner) (hdef : Param.default p = none)
    (hsty : isOutputStyle style = true) :
    processParam ctx st p = .ok { st with
      output_names := st.output_names ++
        [_make_name_unique_by_adding_index (stripIoSuffixes style p.name)
          st.output_names "_"]
      outputs := st.outputs ++
        [{ name := _make_name_unique_by_adding_index (stripIoSuffixes style p.name)
             st.output_names "_"
           type := annotation_to_type_struct ctx inner
           passing_style := some style
           parameter_name := some p.name
           return_tuple_field_name := none }] } := by
  simp [processParam, hann, hdef, hsty]

theorem processParam_marker_in (ctx : InterfaceCtx) (st : IfaceState)
    (p : Param) (style : PassingStyle) (inner : Option PyAnn)
    (hann : p.ann = .marker style inner) (hdef : Param.default p = none)
    (hsty : isOutputStyle style = false) :
    processParam ctx st p = .ok { st with
      input_names := st.input_names ++
        [_make_name_unique_by_adding_index (stripIoSuffixes style p.name)
          st.input_names "_"]
      inputs := st.inputs ++
        [mkInputSpec p
          (_make_name_unique_by_adding_index (stripIoSuffixes style p.name)
            st.input_names "_")
          (annotation_to_type_struct ctx inner) (some style) ctx] } := by
  simp [processParam, hann, hdef, hsty]

theorem processParam_plain (ctx : InterfaceCtx) (st : IfaceState)
    (p : Param) (ann : Option PyAnn) (hann : p.ann = .plain ann) :
    processParam ctx st p = .ok { st with
      input_names := st.input_names ++
        [_make_name_unique_by_adding_index p.name st.input_names "_"]
      inputs := st.inputs ++
        [mkInputSpec p (_make_name_unique_by_adding_index p.name st.input_names "_")
          (annotation_to_type_struct ctx ann) none ctx] } := by
  simp [processParam, hann]

theorem processParams_appends (ctx : InterfaceCtx) :
    ∀ (ps : List Param) (st st2 : IfaceState),
      processParams ctx ps st = .ok st2 →
      ∃ newIn newOut,
        st2.inputs = st.inputs ++ newIn ∧
        st2.outputs = st.outputs ++ newOut ∧
        st2.input_names = st.input_names ++ newIn.map InputSpec.name ∧
        st2.output_names = st.output_names ++ newOut.map OutputSpec.name ∧
        (newIn.map InputSpec.name).Nodup ∧
        (∀ n ∈ newIn.map InputSpec.name, n ∉ st.input_names) ∧
        (newOut.map OutputSpec.name).Nodup ∧
        (∀ n ∈ newOut.map OutputSpec.name, n ∉ st.output_names) ∧
        (∀ i ∈ newIn, (InputSpec.passing_style i).isSome → i.optional = false) ∧
        (∀ o ∈ newOut, (OutputSpec.passing_style o).isSome ∧
          OutputSpec.return_tuple_field_name o = none ∧
          (OutputSpec.parameter_name o).isSome) ∧
        newIn.map InputSpec.parameter_name =
          (ps.filter (fun q => !isOutputParam q)).map Param.name ∧
        newOut.map OutputSpec.parameter_name =
          (ps.filter isOutputParam).map (fun q => some (Param.name q)) := by
  intro ps
  induction ps with
  | nil =>
    intro st st2 h
    have hst : st2 = st := by
      rw [processParams] at h
      exact (Except.ok.inj h).symm
    subst hst
    exact ⟨[], [], by simp, by simp, by simp, by simp, by simp, by simp, by simp,
      by simp, by simp, by simp, by simp, by simp⟩
  | cons p ps ih =>
    intro st st2 h
    rw [processParams] at h
    cases hstep : processParam ctx st p with
    | error e =>
      rw [hstep] at h
      exact absurd h (by simp)
    | ok st1 =>
      rw [hstep] at h
      match hann : p.ann with
      | .marker style inner =>
        cases hdef : Param.default p with
        | some v =>
          rw [processParam_marker_default_err ctx st p style inner hann
            (by rw [hdef]; rfl)] at hstep
          exact absurd hstep (by simp)
        | none =>
          cases hsty : isOutputStyle style with
          | true =>
            have hst1 : st1 = { st with
                output_names := st.output_names ++
                  [_make_name_unique_by_adding_index (stripIoSuffixes style p.name)
                    st.output_names "_"]
                outputs := st.outputs ++
                  [{ name := _make_name_unique_by_adding_index
                       (stripIoSuffixes style p.name) st.output_names "_"
                     type := annotation_to_type_struct ctx inner
                     passing_style := some style
                     parameter_name := some p.name
                     return_tuple_field_name := none }] } := by
              have h0 := processParam_marker_out ctx st p style inner hann hdef hsty
              rw [h0] at hstep
              exact (Except.ok.inj hstep).symm
            subst hst1
            obtain ⟨nI, nO, h1, h2, h3, h4, h5, h6, h7, h8, h9, h10, h11, h12⟩ :=
              ih _ st2 h
            simp only at h1 h2 h3 h4 h6 h8
            set nm := _make_name_unique_by_adding_index (stripIoSuffixes style p.name)
              st.output_names "_" with hnmdef
            set o0 : OutputSpec :=
              { name := nm
                type := annotation_to_type_struct ctx inner
                passing_style := some style
                parameter_name := some p.name
                return_tuple_field_name := none } with ho0def
            have hOutParam : isOutputParam p = true := by
              simp [isOutputParam, hann, hsty]
            refine ⟨nI, o0 :: nO, ?_, ?_, ?_, ?_, ?_, ?_, ?_, ?_, ?_, ?_, ?_, ?_⟩
            · exact h1
            · rw [h2, List.append_assoc]
              rfl
            · exact h3
            · rw [h4, List.append_assoc]
              rfl
            · exact h5
            · exact h6
            · rw [List.map_cons, List.nodup_cons]
              constructor
              · intro hmem
                have := h8 nm hmem
                simp at this
              · exact h7
            · intro n hn
              rcases List.mem_cons.mp hn with hcase | hcase
              · have : (o0 : OutputSpec).name = nm := rfl
                rw [hcase, this]
                exact make_name_unique_not_mem _ _ _
              · intro hbad
                exact h8 n hcase (by simp [hbad])
            · exact h9
            · intro o ho
              rcases List.mem_cons.mp ho with hcase | hcase
              · subst hcase
                exact ⟨rfl, rfl, rfl⟩
              · exact h10 o hcase
            · rw [List.filter_cons_of_neg (by simp [hOutParam])]
              exact h11
            · rw [List.filter_cons_of_pos (by simp [hOutParam])]
              rw [List.map_cons, List.map_cons]
              rw [h12]
          | false =>
            have hst1 : st1 = { st with
                input_names := st.input_names ++
                  [_make_name_unique_by_adding_index (stripIoSuffixes style p.name)
                    st.input_names "_"]
                inputs := st.inputs ++
                  [mkInputSpec p
                    (_make_name_unique_by_adding_index (stripIoSuffixes style p.name)
                      st.input_names "_")
                    (annotation_to_type_struct ctx inner) (some style) ctx] } := by
              have h0 := processParam_marker_in ctx st p style inner hann hdef hsty
              rw [h0] at hstep
              exact (Except.ok.inj hstep).symm
            subst hst1
            obtain ⟨nI, nO, h1, h2, h3, h4, h5, h6, h7, h8, h9, h10, h11, h12⟩ :=
              ih _ st2 h
            simp only at h1 h2 h3 h4 h6 h8
            set nm := _make_name_unique_by_adding_index (stripIoSuffixes style p.name)
              st.input_names "_" with hnmdef
            set i0 : InputSpec := mkInputSpec p nm
              (annotation_to_type_struct ctx inner) (some style) ctx with hi0def
            have hOutParam : isOutputParam p = false := by
              simp [isOutputParam, hann, hsty]
            have hi0name : (i0 : InputSpec).name = nm := rfl
            have hi0param : (i0 : InputSpec).parameter_name = p.name := rfl
            have hi0opt : (i0 : InputSpec).optional = false := by
              simp [hi0def, mkInputSpec, hdef]
            refine ⟨i0 :: nI, nO, ?_, ?_, ?_, ?_, ?_, ?_, ?_, ?_, ?_, ?_, ?_, ?_⟩
            · rw [h1, List.append_assoc]
              rfl
            · exact h2
            · rw [h3, List.append_assoc]
              rfl
            · exact h4
            · rw [List.map_cons, List.nodup_cons]
              constructor
              · intro hmem
                have := h6 nm (by rw [hi0name] at hmem; exact hmem)
                simp at this
              · exact h5
            · intro n hn
              rcases List.mem_cons.mp hn with hcase | hcase
              · rw [hcase, hi0name]
                exact make_name_unique_not_mem _ _ _
              · intro hbad
                exact h6 n hcase (by simp [hbad])
            · exact h7
            · exact h8
            · intro i hi
              rcases List.mem_cons.mp hi with hcase | hcase
              · subst hcase
                intro _
                exact hi0opt
              · exact h9 i hcase
            · exact h10
            · rw [List.filter_cons_of_pos (by simp [hOutParam]), List.map_cons,
                List.map_cons, h11, hi0param]
            · rw [List.filter_cons_of_neg (by simp [hOutParam])]
              exact h12
      | .plain ann =>
        have hst1 : st1 = { st with
            input_names := st.input_names ++
              [_make_name_unique_by_adding_index p.name st.input_names "_"]
            inputs := st.inputs ++
              [mkInputSpec p (_make_name_unique_by_adding_index p.name st.input_names "_")
                (annotation_to_type_struct ctx ann) none ctx] } := by
          have h0 := processParam_plain ctx st p ann hann
          rw [h0] at hstep
          exact (Except.ok.inj hstep).symm
        subst hst1
        obtain ⟨nI, nO, h1, h2, h3, h4, h5, h6, h7, h8, h9, h10, h11, h12⟩ :=
          ih _ st2 h
        simp only at h1 h2 h3 h4 h6 h8
        set nm := _make_name_unique_by_adding_index p.name st.input_names "_" with hnmdef
        set i0 : InputSpec := mkInputSpec p nm
          (annotation_to_type_struct ctx ann) none ctx with hi0def
        have hOutParam : isOutputParam p = false := by
          simp [isOutputParam, hann]
        have hi0name : (i0 : InputSpec).name = nm := rfl
        have hi0param : (i0 : InputSpec).parameter_name = p.name := rfl
        have hi0sty : (i0 : InputSpec).passing_style = none := rfl
        refine ⟨i0 :: nI, nO, ?_, ?_, ?_, ?_, ?_, ?_, ?_, ?_, ?_, ?_, ?_, ?_⟩
        · rw [h1, List.append_assoc]
          rfl
        · exact h2
        · rw [h3, List.append_assoc]
          rfl
        · exact h4
        · rw [List.map_cons, List.nodup_cons]
          constructor
          · intro hmem
            have := h6 nm (by rw [hi0name] at hmem; exact hmem)
            simp at this
          · exact h5
        · intro n hn
          rcases List.mem_cons.mp hn with hcase | hcase
          · rw [hcase, hi0name]
            exact make_name_unique_not_mem _ _ _
          · intro hbad
            exact h6 n hcase (by simp [hbad])
        · exact h7
        · exact h8
        · intro i hi
          rcases List.mem_cons.mp hi with hcase | hcase
          · subst hcase
            rw [hi0sty]
            intro hbad
            simp at hbad
          · exact h9 i hcase
        · exact h10
        · rw [List.filter_cons_of_pos (by simp [hOutParam]), List.map_cons,
            List.map_cons, h11, hi0param]
        · rw [List.filter_cons_of_neg (by simp [hOutParam])]
          exact h12

theorem processReturnFields_appends (ctx : InterfaceCtx) (hft : Bool) :
    ∀ (fields : List (String × Option PyAnn)) (st : IfaceState),
      ∃ em,
        (processReturnFields ctx hft fields st).inputs = st.inputs ∧
        (processReturnFields ctx hft fields st).input_names = st.input_names ∧
        (processReturnFields ctx hft fields st).outputs = st.outputs ++ em ∧
        (processReturnFields ctx hft fields st).output_names =
          st.output_names ++ em.map OutputSpec.name ∧
        em.map OutputSpec.return_tuple_field_name = fields.map (fun f => some f.1) ∧
        (∀ o ∈ em, (OutputSpec.passing_style o) = none ∧
          (OutputSpec.parameter_name o) = none) ∧
        (em.map OutputSpec.name).Nodup ∧
        (∀ n ∈ em.map OutputSpec.name, n ∉ st.output_names) ∧
        ((fields.map Prod.fst).Nodup →
          (∀ fn ∈ fields.map Prod.fst, fn ∉ st.output_names) →
          em.map OutputSpec.name = fields.map Prod.fst) := by
  intro fields
  induction fields with
  | nil =>
    intro st
    exact ⟨[], by simp [processReturnFields], by simp [processReturnFields],
      by simp [processReturnFields], by simp [processReturnFields],
      by simp, by simp, by simp, by simp, by simp⟩
  | cons fld rest ih =>
    intro st
    rw [processReturnFields]
    set nm := _make_name_unique_by_adding_index fld.1 st.output_names "_" with hnmdef
    set o0 : OutputSpec :=
      { name := nm
        type := if hft then annotation_to_type_struct ctx fld.2 else none
        passing_style := none
        parameter_name := none
        return_tuple_field_name := some fld.1 } with ho0def
    set st1 : IfaceState := { st with
      output_names := st.output_names ++ [nm]
      outputs := st.outputs ++ [o0] } with hst1def
    obtain ⟨em, g1, g2, g3, g4, g5, g6, g7, g8, g9⟩ := ih st1
    have hst1names : st1.output_names = st.output_names ++ [nm] := rfl
    have hst1outs : st1.outputs = st.outputs ++ [o0] := rfl
    refine ⟨o0 :: em, ?_, ?_, ?_, ?_, ?_, ?_, ?_, ?_, ?_⟩
    · exact g1
    · exact g2
    · rw [g3, hst1outs, List.append_assoc]
      rfl
    · rw [g4, hst1names, List.append_assoc]
      rfl
    · rw [List.map_cons, List.map_cons, g5]
    · intro o ho
      rcases List.mem_cons.mp ho with hcase | hcase
      · subst hcase
        exact ⟨rfl, rfl⟩
      · exact g6 o hcase
    · rw [List.map_cons, List.nodup_cons]
      refine ⟨?_, g7⟩
      intro hmem
      have := g8 (o0 : OutputSpec).name hmem
      rw [hst1names] at this
      simp at this
    · intro n hn
      rcases List.mem_cons.mp hn with hcase | hcase
      · have : (o0 : OutputSpec).name = nm := rfl
        rw [hcase, this]
        exact make_name_unique_not_mem _ _ _
      · intro hbad
        have := g8 n hcase
        rw [hst1names] at this
        exact this (by simp [hbad])
    · intro hnodup hfresh
      rw [List.map_cons] at hnodup hfresh ⊢
      have hfld : fld.1 ∉ st.output_names := hfresh fld.1 (List.mem_cons_self _ _)
      have ho0name : (o0 : OutputSpec).name = fld.1 := by
        have : nm = fld.1 := by
          rw [hnmdef]
          exact make_name_unique_of_not_mem _ _ _ hfld
        exact this
      rw [ho0name]
      congr 1
      apply g9 (List.nodup_cons.mp hnodup).2
      intro fn hfn
      rw [hst1names]
      intro hbad
      rcases List.mem_append.mp hbad with hb | hb
      · exact hfresh fn (List.mem_cons_of_mem _ hfn) hb
      · have : fn = nm := by simpa using hb
        rw [hnmdef, make_name_unique_of_not_mem _ _ _ hfld] at this
        exact (List.nodup_cons.mp hnodup).1 (this ▸ hfn)

theorem processReturnAnn_plain (ctx : InterfaceCtx) (st : IfaceState) (ann : PyAnn) :
    processReturnAnn ctx st (.plain ann) = { st with
      output_names := st.output_names ++
        [_make_name_unique_by_adding_index "Output" st.output_names "_"]
      outputs := st.outputs ++
        [{ name := _make_name_unique_by_adding_index "Output" st.output_names "_"
           type := annotation_to_type_struct ctx (some ann)
           passing_style := none
           parameter_name := none
           return_tuple_field_name := none }] } := rfl

theorem processReturnAnn_pyNone (ctx : InterfaceCtx) (st : IfaceState) :
    processReturnAnn ctx st .pyNone = st := rfl

theorem processReturnAnn_empty (ctx : InterfaceCtx) (st : IfaceState) :
    processReturnAnn ctx st .empty = st := rfl

theorem processReturnAnn_inputs (ctx : InterfaceCtx) (st : IfaceState)
    (ra : ReturnAnn) :
    (processReturnAnn ctx st ra).inputs = st.inputs ∧
    (processReturnAnn ctx st ra).input_names = st.input_names := by
  cases ra with
  | namedTuple fields hft =>
    obtain ⟨em, g1, g2, _⟩ := processReturnFields_appends ctx hft fields st
    exact ⟨g1, g2⟩
  | pyNone => exact ⟨rfl, rfl⟩
  | empty => exact ⟨rfl, rfl⟩
  | plain ann => exact ⟨rfl, rfl⟩

theorem processParams_error_of_mem (ctx : InterfaceCtx) :
    ∀ (ps : List Param) (st : IfaceState) (p : Param), p ∈ ps →
      (∃ style inner, p.ann = .marker style inner) →
      (Param.default p).isSome = true →
      isErr (processParams ctx ps st) = true := by
  intro ps
  induction ps with
  | nil =>
    intro st p hmem
    simp at hmem
  | cons q rest ih =>
    intro st p hmem hmark hdef
    rw [processParams]
    rcases List.mem_cons.mp hmem with hcase | hcase
    · obtain ⟨style, inner, hann⟩ := hmark
      subst hcase
      rw [processParam_marker_default_err ctx st p style inner hann hdef]
      rfl
    · cases hstep : processParam ctx st q with
      | error e => rfl
      | ok st1 => exact ih st1 p hcase hmark hdef

theorem extract_ok_parts (ctx : InterfaceCtx) (f : Func) (spec : ComponentSpec)
    (h : _extract_component_interface ctx f = .ok spec) :
    ∃ st, processParams ctx f.params initIfaceState = .ok st ∧
      spec.inputs = (processReturnAnn ctx st (Func.returnAnn f)).inputs ∧
      spec.outputs = (processReturnAnn ctx st (Func.returnAnn f)).outputs := by
  rw [_extract_component_interface] at h
  cases hp : processParams ctx f.params initIfaceState with
  | error e =>
    rw [hp] at h
    exact absurd h (by simp)
  | ok st =>
    rw [hp] at h
    refine ⟨st, rfl, ?_, ?_⟩ <;>
      · have := (Except.ok.inj h).symm
        rw [this]

theorem get_argparse_keeps (ctx : AssembleCtx) (st : BuildState)
    (sty : Option PassingStyle) :
    ((get_argparse_type_for_input_file ctx st sty).1).parse_lines = st.parse_lines ∧
    ((get_argparse_type_for_input_file ctx st sty).1).arguments = st.arguments := by
  rcases sty with _ | ps
  · exact ⟨rfl, rfl⟩
  · cases ps <;> exact ⟨rfl, rfl⟩

theorem get_deserializer_keeps (ctx : AssembleCtx) (st : BuildState)
    (t : Option String) :
    ((get_deserializer_and_register_definitions ctx st t).1).parse_lines =
      st.parse_lines ∧
    ((get_deserializer_and_register_definitions ctx st t).1).arguments =
      st.arguments := by
  rcases t with _ | tn
  · exact ⟨rfl, rfl⟩
  · rw [get_deserializer_and_register_definitions]
    cases hd : ctx.deserializers tn with
    | none => exact ⟨rfl, rfl⟩
    | some pr =>
      rcases pr with ⟨code, defn⟩
      dsimp only
      by_cases hdefn : defn ≠ ""
      · rw [if_pos hdefn]
        exact ⟨rfl, rfl⟩
      · rw [if_neg hdefn]
        exact ⟨rfl, rfl⟩

theorem get_argparse_value (ctx : AssembleCtx) (st : BuildState)
    (sty : Option PassingStyle) :
    (get_argparse_type_for_input_file ctx st sty).2 =
      (get_argparse_type_for_input_file ctx initBuildState sty).2 := by
  rcases sty with _ | ps
  · rfl
  · cases ps <;> rfl

theorem get_deserializer_value (ctx : AssembleCtx) (st : BuildState)
    (t : Option String) :
    (get_deserializer_and_register_definitions ctx st t).2 =
      (get_deserializer_and_register_definitions ctx initBuildState t).2 := by
  rcases t with _ | tn
  · rfl
  · rw [get_deserializer_and_register_definitions,
      get_deserializer_and_register_definitions]
    cases hd : ctx.deserializers tn with
    | none => rfl
    | some pr =>
      rcases pr with ⟨code, defn⟩
      dsimp only

theorem processLoopParam_shape (ctx : AssembleCtx) (st : BuildState) (e : LoopParam) :
    (processLoopParam ctx st e).arguments = st.arguments ++ argBlockSpec e ∧
    (processLoopParam ctx st e).parse_lines = st.parse_lines ++ [argLineFor ctx e] := by
  rcases e with i | o
  · rcases hsty : i.passing_style with _ | ps
    · rcases ht : i.type with _ | tn
      · cases hopt : i.optional <;>
          constructor <;>
            simp [processLoopParam, argBlockSpec, argLineFor, argparseTypeOf,
              LoopParam.style, LoopParam.isRequired, LoopParam.name,
              LoopParam.paramName, LoopParam.typeName, hsty, ht, hopt,
              get_argparse_type_for_input_file,
              get_deserializer_and_register_definitions, placeholderForStyle]
      · rcases hd : ctx.deserializers tn with _ | ⟨code, defn⟩
        · cases hopt : i.optional <;>
            constructor <;>
              simp [processLoopParam, argBlockSpec, argLineFor, argparseTypeOf,
                LoopParam.style, LoopParam.isRequired, LoopParam.name,
                LoopParam.paramName, LoopParam.typeName, hsty, ht, hopt, hd,
                get_argparse_type_for_input_file,
                get_deserializer_and_register_definitions, placeholderForStyle]
        · cases hopt : i.optional <;>
            constructor <;>
              (simp only [processLoopParam, argBlockSpec, argLineFor, argparseTypeOf,
                LoopParam.style, LoopParam.isRequired, LoopParam.name,
                LoopParam.paramName, LoopParam.typeName, hsty, ht, hopt, hd,
                get_argparse_type_for_input_file,
                get_deserializer_and_register_definitions, placeholderForStyle]
               ; split) <;> (try split) <;> simp
    · cases ps <;> cases hopt : i.optional <;>
        constructor <;>
          simp [processLoopParam, argBlockSpec, argLineFor, argparseTypeOf,
            LoopParam.style, LoopParam.isRequired, LoopParam.name,
            LoopParam.paramName, LoopParam.typeName, hsty, hopt,
            get_argparse_type_for_input_file, placeholderForStyle]
  · rcases hsty : o.passing_style with _ | ps
    · rcases ht : o.type with _ | tn
      · constructor <;>
          simp [processLoopParam, argBlockSpec, argLineFor, argparseTypeOf,
            LoopParam.style, LoopParam.isRequired, LoopParam.name,
            LoopParam.paramName, LoopParam.typeName, hsty, ht,
            get_argparse_type_for_input_file,
            get_deserializer_and_register_definitions, placeholderForStyle]
      · rcases hd : ctx.deserializers tn with _ | ⟨code, defn⟩
        · constructor <;>
            simp [processLoopParam, argBlockSpec, argLineFor, argparseTypeOf,
              LoopParam.style, LoopParam.isRequired, LoopParam.name,
              LoopParam.paramName, LoopParam.typeName, hsty, ht, hd,
              get_argparse_type_for_input_file,
              get_deserializer_and_register_definitions, placeholderForStyle]
        · constructor <;>
            (simp only [processLoopParam, argBlockSpec, argLineFor, argparseTypeOf,
              LoopParam.style, LoopParam.isRequired, LoopParam.name,
              LoopParam.paramName, LoopParam.typeName, hsty, ht, hd,
              get_argparse_type_for_input_file,
              get_deserializer_and_register_definitions, placeholderForStyle]
             ; split) <;> (try split) <;> simp
    · cases ps <;>
        constructor <;>
          simp [processLoopParam, argBlockSpec, argLineFor, argparseTypeOf,
            LoopParam.style, LoopParam.isRequired, LoopParam.name,
            LoopParam.paramName, LoopParam.typeName, hsty,
            get_argparse_type_for_input_file, placeholderForStyle]

theorem processLoopParams_shape (ctx : AssembleCtx) :
    ∀ (es : List LoopParam) (st : BuildState),
      (processLoopParams ctx es st).arguments =
        st.arguments ++ es.flatMap argBlockSpec ∧
      (processLoopParams ctx es st).parse_lines =
        st.parse_lines ++ es.map (argLineFor ctx) := by
  intro es
  induction es with
  | nil => intro st; simp [processLoopParams]
  | cons e rest ih =>
    intro st
    rw [processLoopParams]
    obtain ⟨ha, hl⟩ := ih (processLoopParam ctx st e)
    obtain ⟨ha0, hl0⟩ := processLoopParam_shape ctx st e
    constructor
    · rw [ha, ha0, List.flatMap_cons, List.append_assoc]
    · rw [hl, hl0, List.map_cons, List.append_assoc]
      rfl

theorem loaderVersionCheckFatal_iff (p c : PyVersionInfo) :
    loaderVersionCheckFatal p c = true ↔
      (c.major ≠ p.major ∨ c.minor < p.minor ∨ ¬(isPre36 p ↔ isPre36 c)) := by
  simp only [loaderVersionCheckFatal, Bool.or_eq_true, Bool.and_eq_true,
    decide_eq_true_eq, bne_iff_ne, ne_eq, decide_eq_decide]
  constructor
  · rintro ((h | h) | ⟨h3, h6⟩)
    · exact Or.inl h
    · exact Or.inr (Or.inl h)
    · by_cases hm : c.major = p.major
      · refine Or.inr (Or.inr ?_)
        have hp3 : p.major = 3 := by omega
        have e1 : isPre36 p ↔ p.minor < 6 := by unfold isPre36; omega
        have e2 : isPre36 c ↔ c.minor < 6 := by unfold isPre36; omega
        intro hiff
        exact h6 ((e1.symm.trans hiff).trans e2)
      · exact Or.inl hm
  · rintro (h | h | h)
    · exact Or.inl (Or.inl h)
    · exact Or.inl (Or.inr h)
    · by_cases hm : c.major = p.major
      · by_cases h3 : c.major = 3
        · refine Or.inr ⟨h3, ?_⟩
          have hp3 : p.major = 3 := by omega
          have e1 : isPre36 p ↔ p.minor < 6 := by unfold isPre36; omega
          have e2 : isPre36 c ↔ c.minor < 6 := by unfold isPre36; omega
          intro hx
          exact h ((e1.trans hx).trans e2.symm)
        · exfalso
          apply h
          unfold isPre36
          omega
      · exact Or.inl (Or.inl hm)

theorem resolveBaseImage_conflict (d e : String) (dflt : DefaultImage)
    (hne : e ≠ d) :
    resolveBaseImage (some d) (some e) dflt =
      .error ("base_image (" ++ e ++
        ") conflicts with the decorator-specified base image metadata (" ++ d ++ ")") := by
  rw [resolveBaseImage]
  rw [if_pos]
  · rfl
  · simp [hne]

theorem resolveBaseImage_agree (d : String) (dflt : DefaultImage) :
    resolveBaseImage (some d) (some d) dflt = .ok d := by
  rw [resolveBaseImage, if_neg]
  simp

theorem resolveBaseImage_explicit (e : String) (dflt : DefaultImage) :
    resolveBaseImage none (some e) dflt = .ok e := rfl

theorem resolveBaseImage_attached (d : String) (dflt : DefaultImage) :
    resolveBaseImage (some d) none dflt = .ok d := by
  rw [resolveBaseImage, if_neg]
  simp

theorem resolveBaseImage_default_value (s : String) :
    resolveBaseImage none none (.value s) = .ok s := rfl

theorem resolveBaseImage_default_factory (f : Unit → String) :
    resolveBaseImage none none (.factory f) = .ok (f ()) := rfl

theorem specImageArgs_sigma_independent (ctx : AssembleCtx)
    (s1 s2 : List String → List String) (func : Func) (extra_code : String)
    (base_image : Option String) (packages_to_install : List String)
    (use_code_pickling : Bool) (default_base_image : DefaultImage) :
    specImageArgs (_func_to_component_spec ctx s1 func extra_code base_image
      packages_to_install use_code_pickling default_base_image) =
    specImageArgs (_func_to_component_spec ctx s2 func extra_code base_image
      packages_to_install use_code_pickling default_base_image) := by
  rw [_func_to_component_spec, _func_to_component_spec]
  cases resolveBaseImage (Func.componentBaseImage func) base_image default_base_image with
  | error e => rfl
  | ok image =>
    cases _extract_component_interface ctx.iface func with
    | error e => rfl
    | ok component_spec =>
      dsimp only [specImageArgs, Except.map]

theorem collectSerializers_keeps (ctx : AssembleCtx) :
    ∀ (os : List OutputSpec) (st : BuildState),
      ((collectSerializers ctx os st).1).arguments = st.arguments ∧
      ((collectSerializers ctx os st).1).parse_lines = st.parse_lines := by
  intro os
  induction os with
  | nil => intro st; exact ⟨rfl, rfl⟩
  | cons o rest ih =>
    intro st
    rw [collectSerializers]
    have hkeep : ((get_serializer_and_register_definitions ctx st o.type).1).arguments =
        st.arguments ∧
        ((get_serializer_and_register_definitions ctx st o.type).1).parse_lines =
        st.parse_lines := by
      rcases ht : o.type with _ | tn
      · exact ⟨rfl, rfl⟩
      · rw [get_serializer_and_register_definitions]
        cases hs : ctx.serializers tn with
        | none => exact ⟨rfl, rfl⟩
        | some si =>
          dsimp only
          by_cases hc : si.hasModule && !ctx.moduleIsStd si.module
          · rw [if_pos hc]
            exact ⟨rfl, rfl⟩
          · rw [if_neg hc]
            exact ⟨rfl, rfl⟩
    obtain ⟨ha, hl⟩ := ih ((get_serializer_and_register_definitions ctx st o.type).1)
    exact ⟨ha.trans hkeep.1, hl.trans hkeep.2⟩

theorem fileStyleOutputs_processReturn (ctx : InterfaceCtx) (st : IfaceState)
    (ra : ReturnAnn) :
    fileStyleOutputs ((processReturnAnn ctx st ra).outputs) =
      fileStyleOutputs st.outputs := by
  cases ra with
  | namedTuple fields hft =>
    obtain ⟨em, _, _, g3, _, _, g6, _⟩ := processReturnFields_appends ctx hft fields st
    rw [processReturnAnn, g3, fileStyleOutputs, List.filter_append]
    have : em.filter (fun o => (OutputSpec.passing_style o).isSome) = [] := by
      rw [List.filter_eq_nil_iff]
      intro o ho
      rw [(g6 o ho).1]
      simp
    rw [this, List.append_nil]
    rfl
  | pyNone => rfl
  | empty => rfl
  | plain ann =>
    rw [processReturnAnn_plain, fileStyleOutputs]
    dsimp only
    rw [List.filter_append]
    simp [fileStyleOutputs]

theorem returnStyle_keeps_fileStyle (outs : List OutputSpec)
    (h : ∀ o ∈ outs, (OutputSpec.passing_style o).isSome = true) :
    fileStyleOutputs outs = outs := by
  rw [fileStyleOutputs, List.filter_eq_self]
  intro o ho
  exact h o ho

theorem processReturnAnn_outputs_nodup (ctx : InterfaceCtx) (st : IfaceState)
    (ra : ReturnAnn)
    (hnod : (st.outputs.map OutputSpec.name).Nodup)
    (hsub : ∀ n ∈ st.outputs.map OutputSpec.name, n ∈ st.output_names) :
    ((processReturnAnn ctx st ra).outputs.map OutputSpec.name).Nodup := by
  cases ra with
  | namedTuple fields hft =>
    obtain ⟨em, _, _, g3, _, _, _, g7, g8, _⟩ :=
      processReturnFields_appends ctx hft fields st
    rw [processReturnAnn, g3, List.map_append, List.nodup_append]
    refine ⟨hnod, g7, ?_⟩
    intro n hn hn2
    exact g8 n hn2 (hsub n hn)
  | pyNone => exact hnod
  | empty => exact hnod
  | plain ann =>
    rw [processReturnAnn_plain]
    dsimp only
    rw [List.map_append, List.nodup_append]
    refine ⟨hnod, by simp, ?_⟩
    intro n hn hn2
    simp only [List.map_cons, List.map_nil, List.mem_singleton] at hn2
    rw [hn2] at hn
    exact make_name_unique_not_mem "Output" st.output_names "_" (hsub _ hn)

/-- C3: a parameter annotated with one of the six file/stream passing-style
markers that also declares a default value makes signature analysis fail (no
specification is produced), and file/stream-style input descriptors are never
marked optional. -/
theorem C3_file_default_raises_and_never_optional :
    (∀ (ctx : InterfaceCtx) (f : Func) (p : Param), p ∈ f.params →
      (∃ style inner, p.ann = ParamAnn.marker style inner) →
      (Param.default p).isSome = true →
      isErr (_extract_component_interface ctx f) = true) ∧
    (∀ (ctx : InterfaceCtx) (f : Func) (spec : ComponentSpec),
      _extract_component_interface ctx f = .ok spec →
      ∀ i ∈ spec.inputs, (InputSpec.passing_style i).isSome = true →
        i.optional = false) := by
  constructor
  · intro ctx f p hmem hmark hdef
    rw [_extract_component_interface]
    cases hp : processParams ctx f.params initIfaceState with
    | error e => rfl
    | ok st =>
      have := processParams_error_of_mem ctx f.params initIfaceState p hmem hmark hdef
      rw [hp] at this
      exact absurd this (by simp [isErr])
  · intro ctx f spec h i hi hsty
    obtain ⟨st, hp, hin, _⟩ := extract_ok_parts ctx f spec h
    obtain ⟨nI, nO, h1, _, _, _, _, _, _, _, h9, _⟩ :=
      processParams_appends ctx f.params initIfaceState st hp
    rw [hin, (processReturnAnn_inputs ctx st (Func.returnAnn f)).1, h1] at hi
    simp only [initIfaceState, List.nil_append] at hi
    exact h9 i hi hsty

/-- Witness for C3: the callable whose `InputPath` parameter declares a
default is rejected, and the file-style input of an accepted callable is not
optional. -/
theorem C3_witness :
    isErr (_extract_component_interface ictx0 funcFileDefault) = true ∧
    ({ name := "data", type := none, optional := false, default := none,
       passing_style := some .inputPath,
       parameter_name := "data_path" } : InputSpec).optional = false :=
  ⟨C3_file_default_raises_and_never_optional.1 ictx0 funcFileDefault
      { name := "x", ann := .marker .inputPath none, default := some (.lit "5") }
      (by decide) ⟨.inputPath, none, rfl⟩ (by decide),
   C3_file_default_raises_and_never_optional.2 ictx0 funcFileAndOptional _ rfl
      _ (by decide) (by decide)⟩

/-- C5: every specification produced by signature analysis has pairwise-unique
names within its inputs and within its outputs, the two lists being separate
namespaces; colliding names are renamed by the stable suffixing rule (see the
witness, where two parameters normalizing to `data` come out as `data` and
`data_2`). -/
theorem C5_descriptor_names_unique (ctx : InterfaceCtx) (f : Func)
    (spec : ComponentSpec)
    (h : _extract_component_interface ctx f = .ok spec) :
    (spec.inputs.map InputSpec.name).Nodup ∧
    (spec.outputs.map OutputSpec.name).Nodup := by
  obtain ⟨st, hp, hin, hout⟩ := extract_ok_parts ctx f spec h
  obtain ⟨nI, nO, h1, h2, h3, h4, h5, h6, h7, h8, _⟩ :=
    processParams_appends ctx f.params initIfaceState st hp
  simp only [initIfaceState, List.nil_append] at h1 h2 h3 h4
  constructor
  · rw [hin, (processReturnAnn_inputs ctx st (Func.returnAnn f)).1, h1]
    exact h5
  · rw [hout]
    apply processReturnAnn_outputs_nodup ctx st (Func.returnAnn f)
    · rw [h2]
      exact h7
    · intro n hn
      rw [h4]
      rw [h2] at hn
      exact hn

/-- Witness for C5: the callable whose `data_path` and `data` parameters
normalize to the same visible name yields inputs named `data` and `data_2`,
pairwise distinct, with the distinctness facts obtained from the uniqueness
theorem at this concrete callable. -/
theorem C5_witness :
    (ifaceInputNames (_extract_component_interface ictx0 funcCollidingNames)).Nodup ∧
    (ifaceOutputNames (_extract_component_interface ictx0 funcCollidingNames)).Nodup ∧
    ifaceInputNames (_extract_component_interface ictx0 funcCollidingNames) =
      ["data", "data_2"] := by
  refine ⟨?_, ?_, by decide⟩
  · exact (C5_descriptor_names_unique ictx0 funcCollidingNames _ rfl).1
  · exact (C5_descriptor_names_unique ictx0 funcCollidingNames _ rfl).2

/-- C9: when the return annotation is an explicit `None` (as opposed to
absent), no return-derived output descriptor is emitted: the outputs are
exactly the file-style descriptors produced by explicit output-style
parameters. -/
theorem C9_none_return_no_output (ctx : InterfaceCtx) (f : Func)
    (spec : ComponentSpec) (hra : Func.returnAnn f = .pyNone)
    (h : _extract_component_interface ctx f = .ok spec) :
    (∃ st, processParams ctx f.params initIfaceState = .ok st ∧
      spec.outputs = st.outputs) ∧
    ∀ o ∈ spec.outputs, (OutputSpec.passing_style o).isSome = true ∧
      OutputSpec.return_tuple_field_name o = none := by
  obtain ⟨st, hp, hin, hout⟩ := extract_ok_parts ctx f spec h
  rw [hra, processReturnAnn_pyNone] at hout
  refine ⟨⟨st, hp, hout⟩, ?_⟩
  obtain ⟨nI, nO, h1, h2, _, _, _, _, _, _, _, h10, _⟩ :=
    processParams_appends ctx f.params initIfaceState st hp
  simp only [initIfaceState, List.nil_append] at h2
  intro o ho
  rw [hout, h2] at ho
  obtain ⟨ha, hb, _⟩ := h10 o ho
  exact ⟨ha, hb⟩

/-- Witness for C9: the callable annotated to return `None` keeps only its
`OutputPath`-derived output `out`, whose field-name attribute is empty, as the
theorem instance at this callable shows. -/
theorem C9_witness :
    ifaceOutputNames (_extract_component_interface ictx0 funcReturnsNone) = ["out"] ∧
    ({ name := "out", type := none, passing_style := some .outputPath,
       parameter_name := some "out_path",
       return_tuple_field_name := none } : OutputSpec).return_tuple_field_name
      = none := by
  refine ⟨by decide, ?_⟩
  exact ((C9_none_return_no_output ictx0 funcReturnsNone _ rfl rfl).2 _ (by decide)).2

/-- C4: return-shape analysis after the parameter loop.  A named-field tuple
return annotation emits one by-return-value descriptor per field, in field
order, each carrying its field name and collision-resolved against the
existing output names (when no field collides, the names are exactly the field
names); any other present, non-`None` annotation emits exactly one
by-return-value descriptor named by the fixed label `Output`, collision
resolved against the existing output names. -/
theorem C4_return_shape_outputs :
    (∀ (ctx : InterfaceCtx) (st : IfaceState)
       (fields : List (String × Option PyAnn)) (hft : Bool),
      ∃ em, (processReturnAnn ctx st (.namedTuple fields hft)).outputs =
          st.outputs ++ em ∧
        em.map OutputSpec.return_tuple_field_name =
          fields.map (fun fl => some fl.1) ∧
        (∀ o ∈ em, OutputSpec.passing_style o = none) ∧
        (em.map OutputSpec.name).Nodup ∧
        (∀ n ∈ em.map OutputSpec.name, n ∉ st.output_names) ∧
        ((fields.map Prod.fst).Nodup →
          (∀ fn ∈ fields.map Prod.fst, fn ∉ st.output_names) →
          em.map OutputSpec.name = fields.map Prod.fst)) ∧
    (∀ (ctx : InterfaceCtx) (st : IfaceState) (ann : PyAnn),
      ∃ o, (processReturnAnn ctx st (.plain ann)).outputs = st.outputs ++ [o] ∧
        OutputSpec.passing_style o = none ∧
        OutputSpec.return_tuple_field_name o = none ∧
        OutputSpec.name o ∉ st.output_names ∧
        ("Output" ∉ st.output_names → OutputSpec.name o = "Output")) := by
  constructor
  · intro ctx st fields hft
    obtain ⟨em, _, _, g3, _, g5, g6, g7, g8, g9⟩ :=
      processReturnFields_appends ctx hft fields st
    exact ⟨em, g3, g5, fun o ho => (g6 o ho).1, g7, g8, g9⟩
  · intro ctx st ann
    refine ⟨{ name := _make_name_unique_by_adding_index "Output" st.output_names "_"
              type := annotation_to_type_struct ctx (some ann)
              passing_style := none
              parameter_name := none
              return_tuple_field_name := none }, ?_, rfl, rfl, ?_, ?_⟩
    · rw [processReturnAnn_plain]
    · exact make_name_unique_not_mem "Output" st.output_names "_"
    · intro hfree
      exact make_name_unique_of_not_mem "Output" st.output_names "_" hfree

/-- Witness for C4: with no prior outputs, the named-field shape
`(sum, product)` yields outputs named `sum` and `product` in field order, and
a plain annotation yields the single output `Output` — both obtained from the
return-shape theorem at these concrete shapes. -/
theorem C4_witness :
    (processReturnAnn ictx0 initIfaceState
      (.namedTuple [("sum", none), ("product", none)] false)).outputs.map
        OutputSpec.name = ["sum", "product"] ∧
    (processReturnAnn ictx0 initIfaceState (.plain (.tyObj "str"))).outputs.map
      OutputSpec.name = ["Output"] := by
  constructor
  · obtain ⟨em, h1, _, _, _, _, h6⟩ := C4_return_shape_outputs.1 ictx0
      initIfaceState [("sum", none), ("product", none)] false
    have hclean := h6 (by decide) (by intro fn hfn; simp [initIfaceState])
    rw [h1, List.map_append, hclean]
    rfl
  · obtain ⟨o, h1, _, _, _, h5⟩ := C4_return_shape_outputs.2 ictx0
      initIfaceState (.tyObj "str")
    have hname := h5 (by simp [initIfaceState])
    rw [h1, List.map_append, List.map_cons, hname]
    rfl

/-- C10: each generated parser option line stores its parsed value under the
original parameter name — the loop emits, per descriptor, exactly the option
line whose dest is the descriptor `_parameter_name` attribute — and that
attribute always holds the originating callable parameter name (not the
possibly suffix-stripped or collision-renamed public name), so the generated
keyword bindings match the callable signature. -/
theorem C10_dest_uses_original_parameter_name :
    (∀ (ctx : AssembleCtx) (es : List LoopParam) (st : BuildState),
      (processLoopParams ctx es st).parse_lines =
        st.parse_lines ++ es.map (argLineFor ctx)) ∧
    (∀ (ctx : InterfaceCtx) (f : Func) (spec : ComponentSpec),
      _extract_component_interface ctx f = .ok spec →
      spec.inputs.map InputSpec.parameter_name =
        (f.params.filter (fun q => !isOutputParam q)).map Param.name ∧
      (fileStyleOutputs spec.outputs).map OutputSpec.parameter_name =
        (f.params.filter isOutputParam).map (fun q => some (Param.name q))) := by
  constructor
  · intro ctx es st
    exact (processLoopParams_shape ctx es st).2
  · intro ctx f spec h
    obtain ⟨st, hp, hin, hout⟩ := extract_ok_parts ctx f spec h
    obtain ⟨nI, nO, h1, h2, _, _, _, _, _, _, _, h10, h11, h12⟩ :=
      processParams_appends ctx f.params initIfaceState st hp
    simp only [initIfaceState, List.nil_append] at h1 h2
    constructor
    · rw [hin, (processReturnAnn_inputs ctx st (Func.returnAnn f)).1, h1]
      exact h11
    · rw [hout, fileStyleOutputs_processReturn, h2,
        returnStyle_keeps_fileStyle nO (fun o ho => (h10 o ho).1)]
      exact h12

/-- Witness for C10: the parameter `number_file_path` is renamed to the public
input `number`, yet the generated option line and the descriptor both keep the
original name `number_file_path`, as the theorem instances at this callable
show. -/
theorem C10_witness :
    (processLoopParams actx0
      [LoopParam.inp ⟨"number", none, false, none, some .inputPath,
        "number_file_path"⟩] initBuildState).parse_lines =
      ["_parser.add_argument(\"--number\", dest=\"number_file_path\", type=str, required=True, default=argparse.SUPPRESS)"] ∧
    ifaceInputNames (_extract_component_interface ictx0 funcRenamedParam) =
      ["number"] ∧
    ifaceInputParamNames (_extract_component_interface ictx0 funcRenamedParam) =
      ["number_file_path"] := by
  refine ⟨?_, by decide, ?_⟩
  · rw [C10_dest_uses_original_parameter_name.1 actx0 _ initBuildState]
    decide
  · have := (C10_dest_uses_original_parameter_name.2 ictx0 funcRenamedParam
      _ rfl).1
    exact this

/-- C6: every input and every file-style output contributes a two-element
flag + placeholder pair to the args template — the flag a double dash plus the
name with underscores replaced by hyphens, the placeholder selected by passing
style — appended directly when required and wrapped in an `IfPlaceholder`
guarded by `IsPresent(name)` when optional; the whole template is these blocks
in order (inputs, then file-style outputs), followed by the shared
return-style block only when return-style outputs exist. -/
theorem C6_flag_placeholder_blocks :
    (∀ (ctx : AssembleCtx) (es : List LoopParam) (st : BuildState),
      (processLoopParams ctx es st).arguments =
        st.arguments ++ es.flatMap argBlockSpec) ∧
    (∀ (ctx : AssembleCtx) (sigma : List String → List String) (func : Func)
       (extra_code : String) (base_image : Option String)
       (packages_to_install : List String) (use_code_pickling : Bool)
       (default_base_image : DefaultImage) (cs : ComponentSpec) (img : String),
      resolveBaseImage (Func.componentBaseImage func) base_image
        default_base_image = .ok img →
      _extract_component_interface ctx.iface func = .ok cs →
      specArgs (_func_to_component_spec ctx sigma func extra_code base_image
        packages_to_install use_code_pickling default_base_image) =
        .ok ((cs.inputs.map LoopParam.inp ++
            (fileStyleOutputs cs.outputs).map LoopParam.out).flatMap argBlockSpec ++
          (if returnStyleOutputs cs.outputs ≠ [] then
            CommandArg.basic (.literal "----output-paths") ::
              cs.outputs.map (fun o => CommandArg.basic (.outputPath o.name))
           else []))) := by
  constructor
  · intro ctx es st
    exact (processLoopParams_shape ctx es st).1
  · intro ctx sigma func extra_code base_image packages_to_install
      use_code_pickling default_base_image cs img hr hi
    rw [_func_to_component_spec, hr, hi]
    dsimp only [specArgs, Except.map]
    congr 1
    rw [(collectSerializers_keeps ctx _ _).1]
    by_cases hc : returnStyleOutputs cs.outputs ≠ []
    · rw [if_pos hc, if_pos hc]
      dsimp only
      rw [(processLoopParams_shape ctx _ initBuildState).1]
      simp [initBuildState]
    · rw [if_neg hc, if_neg hc]
      rw [(processLoopParams_shape ctx _ initBuildState).1]
      simp [initBuildState]

/-- Witness for C6: the callable with one `InputPath` input and one
`OutputPath` output yields exactly the two required flag + placeholder pairs,
in order, with no conditional wrapper and no shared block. -/
theorem C6_witness :
    specArgs (_func_to_component_spec actx0 id funcTwoFiles "" none [] false
      (.value "img")) =
      .ok [.basic (.literal "--a"), .basic (.inputPath "a"),
           .basic (.literal "--b"), .basic (.outputPath "b")] := by
  rw [C6_flag_placeholder_blocks.2 actx0 id funcTwoFiles "" none [] false
    (.value "img") _ _ rfl rfl]
  decide

/-- C7: a decorator-attached base image conflicting with a different explicit
call-site image aborts assembly before any specification is produced;
otherwise the effective image follows the precedence explicit call-site image
over attached default over process-wide default, the process-wide factory
being invoked only at resolution time, and only when both other sources are
absent. -/
theorem C7_image_resolution :
    (∀ (ctx : AssembleCtx) (sigma : List String → List String) (f : Func)
       (extra_code : String) (e d : String) (packages_to_install : List String)
       (use_code_pickling : Bool) (default_base_image : DefaultImage),
      Func.componentBaseImage f = some d → e ≠ d →
      isErr (_func_to_component_spec ctx sigma f extra_code (some e)
        packages_to_install use_code_pickling default_base_image) = true) ∧
    (∀ (d : String) (dflt : DefaultImage),
      resolveBaseImage (some d) (some d) dflt = .ok d) ∧
    (∀ (e : String) (dflt : DefaultImage),
      resolveBaseImage none (some e) dflt = .ok e) ∧
    (∀ (d : String) (dflt : DefaultImage),
      resolveBaseImage (some d) none dflt = .ok d) ∧
    (∀ s : String, resolveBaseImage none none (.value s) = .ok s) ∧
    (∀ fgen : Unit → String,
      resolveBaseImage none none (.factory fgen) = .ok (fgen ())) ∧
    (∀ (dec bi : Option String) (fgen ggen : Unit → String),
      dec.isSome = true ∨ bi.isSome = true →
      resolveBaseImage dec bi (.factory fgen) =
        resolveBaseImage dec bi (.factory ggen)) := by
  refine ⟨?_, resolveBaseImage_agree, resolveBaseImage_explicit,
    resolveBaseImage_attached, resolveBaseImage_default_value,
    resolveBaseImage_default_factory, ?_⟩
  · intro ctx sigma f extra_code e d packages_to_install use_code_pickling
      default_base_image hd hne
    rw [_func_to_component_spec, hd,
      resolveBaseImage_conflict d e default_base_image hne]
    rfl
  · intro dec bi fgen ggen hsome
    rcases dec with _ | d
    · rcases bi with _ | b
      · simp at hsome
      · rfl
    · rfl

/-- Witness for C7: the callable carrying attached image `attached:1`
conflicts with the explicit image `explicit:2` and assembly raises; the
precedence equations hold at concrete images, including the lazily evaluated
factory. -/
theorem C7_witness :
    isErr (_func_to_component_spec actx0 id funcWithAttachedImage ""
      (some "explicit:2") [] false (.value "proc")) = true ∧
    resolveBaseImage none (some "explicit:2") (.value "proc") = .ok "explicit:2" ∧
    resolveBaseImage (some "attached:1") none (.value "proc") = .ok "attached:1" ∧
    resolveBaseImage none none (.factory (fun _ => "made")) = .ok "made" :=
  ⟨C7_image_resolution.1 actx0 id funcWithAttachedImage "" "explicit:2"
      "attached:1" [] false (.value "proc") rfl (by decide),
   C7_image_resolution.2.2.1 "explicit:2" (.value "proc"),
   C7_image_resolution.2.2.2.1 "attached:1" (.value "proc"),
   C7_image_resolution.2.2.2.2.2.1 (fun _ => "made")⟩

set_option maxRecDepth 10000 in
/-- C1 (code evidence): for the callable with one `OutputPath` parameter and a
plain return annotation, the block after the shared `----output-paths` flag
holds an `OutputPath` placeholder for every output — the file-style `out`
included — although only one output is return-style, and the multi-value
option is generated with one value per output (two), not per return-style
output (one): line 460 and line 464 use `component_spec.outputs` instead of
`outputs_passed_through_func_return_tuple`. -/
theorem C1_shared_flag_block_covers_all_outputs :
    specArgs (_func_to_component_spec actx0 id funcMixedOutputs "" none []
      false (.value "img")) =
      .ok [.basic (.literal "--out"), .basic (.outputPath "out"),
           .basic (.literal "----output-paths"), .basic (.outputPath "out"),
           .basic (.outputPath "Output")] ∧
    Except.map (fun s => (returnStyleOutputs s.outputs).length)
      (_extract_component_interface ictx0 funcMixedOutputs) = .ok 1 ∧
    Except.map (fun s => s.outputs.length)
      (_extract_component_interface ictx0 funcMixedOutputs) = .ok 2 :=
  ⟨by decide, by decide, by decide⟩

set_option maxRecDepth 10000 in
/-- C2 (counterexample): reading the collected pre-function definition set in
two different linearizations — both permutations of the same three collected
sources — produces different generated program text, so assembly does depend
on the iteration order of an unordered container. -/
theorem C2_program_text_depends_on_set_order :
    specCommand (_func_to_component_spec actx0 id funcTwoFiles "" none []
      false (.value "img")) ≠
    specCommand (_func_to_component_spec actx0 List.reverse funcTwoFiles ""
      none [] false (.value "img")) := by
  decide

/-- C2 (amended): for one fixed linearization of the two collected definition
sets, assembly is a pure function of the callable and options; the resolved
image and the whole args template never depend on the linearization — only
the generated program text inside the command does. -/
theorem C2_image_args_independent_of_set_order (ctx : AssembleCtx)
    (s1 s2 : List String → List String) (func : Func) (extra_code : String)
    (base_image : Option String) (packages_to_install : List String)
    (use_code_pickling : Bool) (default_base_image : DefaultImage) :
    specImageArgs (_func_to_component_spec ctx s1 func extra_code base_image
      packages_to_install use_code_pickling default_base_image) =
    specImageArgs (_func_to_component_spec ctx s2 func extra_code base_image
      packages_to_install use_code_pickling default_base_image) :=
  specImageArgs_sigma_independent ctx s1 s2 func extra_code base_image
    packages_to_install use_code_pickling default_base_image

/-- C8 (counterexample): a consumer whose minor version is below the
producer's — both on Python 3, both at or past 3.6 — is fatal for the
generated loader, while the claim predicts only a non-fatal warning there. -/
theorem C8_minor_downgrade_counterexample :
    loaderVersionCheckFatal ⟨3, 8, 0⟩ ⟨3, 7, 0⟩ = true ∧
    ¬claimFatalCondition ⟨3, 8, 0⟩ ⟨3, 7, 0⟩ :=
  ⟨by decide, by decide⟩

/-- C8 (amended): the generated loader fails fatally exactly when the major
versions differ, or the consuming minor version is below the producing one, or
exactly one of the two sides is pre-3.6; any other version mismatch only
prints the non-fatal warning. -/
theorem C8_fatal_condition_amended (p c : PyVersionInfo) :
    (loaderVersionCheckFatal p c = true ↔
      (c.major ≠ p.major ∨ c.minor < p.minor ∨ ¬(isPre36 p ↔ isPre36 c))) ∧
    (loaderVersionCheckWarns p c = true ↔
      (loaderVersionCheckFatal p c = false ∧ p ≠ c)) := by
  refine ⟨loaderVersionCheckFatal_iff p c, ?_⟩
  rw [loaderVersionCheckWarns]
  simp

/-- Witness for C8 (amended): the boundary case with producer 3.5 and
consumer 3.7 is fatal, via the amended characterization. -/
theorem C8_amended_witness :
    loaderVersionCheckFatal ⟨3, 5, 0⟩ ⟨3, 7, 0⟩ = true :=
  (C8_fatal_condition_amended ⟨3, 5, 0⟩ ⟨3, 7, 0⟩).1.mpr
    (Or.inr (Or.inr (by decide)))
